import Mathlib

/-!
# TurboSerial v5 codec: a shallow embedding

This file embeds the core of the TurboSerial binary serializer (a growable,
alignment-aware byte pool; a varint codec; a numeric-array analyzer; a type
classifier; the writer driver; and the bounds-checked reader driver) as
executable Lean definitions, and proves properties of the embedding.

Modelling conventions:
* JS numbers holding mathematical integers are modelled as `ℤ`; the coercions
  `x | 0` (ToInt32) and `x >>> 0` (ToUint32) are modelled explicitly.
* Byte buffers are `List Nat` with every element a byte value; the writer pool
  additionally records a `trace` of every multi-byte scalar store as a pair
  (wire offset, width), which the JS code does implicitly through its typed
  DataView stores.
* Recursion over the dynamic value graph is bounded by an explicit fuel
  argument so that every definition is structurally recursive and evaluates
  inside the kernel.  The writer fuel bounds recursion depth and is irrelevant
  as soon as it exceeds the nesting depth of the value (the fuel-0 branch is
  then never reached); the reader fuel is instantiated with the input length,
  which is proved sufficient.
-/

namespace TurboSerial

/-! ## JS integer coercions -/

/-- ToUint32: the JS coercion produced by the expression x >>> 0. -/
def toUint32 (n : ℤ) : ℤ := n % 2 ^ 32

/-- ToInt32: the JS coercion produced by the expression x | 0. -/
def toInt32 (n : ℤ) : ℤ :=
  let m := n % 2 ^ 32
  if m < 2 ^ 31 then m else m - 2 ^ 32

/-- JS left shift a << k on 32-bit integers: the shift count is taken mod 32
and the result is an int32. -/
def jsShl32 (a : ℤ) (k : Nat) : ℤ := toInt32 (toInt32 a * 2 ^ (k % 32))

/-- JS bitwise or a | b on 32-bit integers. -/
def jsOr32 (a b : ℤ) : ℤ := toInt32 (((toUint32 a).toNat ||| (toUint32 b).toNat : Nat))

/-! ## Wire tags (the TYPE table of the source, values preserved exactly) -/

namespace TYPE

def NULL : Nat := 0x00
def UNDEFINED : Nat := 0x01
def FALSE : Nat := 0x02
def TRUE : Nat := 0x03
def INT8 : Nat := 0x10
def INT16 : Nat := 0x11
def INT32 : Nat := 0x12
def UINT32 : Nat := 0x13
def FLOAT32 : Nat := 0x14
def FLOAT64 : Nat := 0x15
def NAN : Nat := 0x16
def INFINITY : Nat := 0x17
def NEG_INFINITY : Nat := 0x18
def NEG_ZERO : Nat := 0x19
def VARINT : Nat := 0x1A
def BIGINT_POS_SMALL : Nat := 0x20
def BIGINT_NEG_SMALL : Nat := 0x21
def BIGINT_POS_LARGE : Nat := 0x22
def BIGINT_NEG_LARGE : Nat := 0x23
def STRING_EMPTY : Nat := 0x30
def STRING_ASCII_TINY : Nat := 0x31
def STRING_ASCII_SHORT : Nat := 0x32
def STRING_ASCII_LONG : Nat := 0x33
def STRING_UTF8_TINY : Nat := 0x34
def STRING_UTF8_SHORT : Nat := 0x35
def STRING_UTF8_LONG : Nat := 0x36
def STRING_REF : Nat := 0x37
def ARRAY_EMPTY : Nat := 0x40
def ARRAY_DENSE : Nat := 0x41
def ARRAY_SPARSE : Nat := 0x42
def ARRAY_PACKED_I8 : Nat := 0x43
def ARRAY_PACKED_I16 : Nat := 0x44
def ARRAY_PACKED_I32 : Nat := 0x45
def ARRAY_PACKED_F32 : Nat := 0x46
def ARRAY_PACKED_F64 : Nat := 0x47
def OBJECT_EMPTY : Nat := 0x50
def OBJECT_PLAIN : Nat := 0x51
def OBJECT_LITERAL : Nat := 0x52
def OBJECT_CONSTRUCTOR : Nat := 0x53
def OBJECT_WITH_DESCRIPTORS : Nat := 0x54
def OBJECT_WITH_METHODS : Nat := 0x55
def UINT8ARRAY : Nat := 0x60
def INT8ARRAY : Nat := 0x61
def UINT8CLAMPEDARRAY : Nat := 0x62
def UINT16ARRAY : Nat := 0x63
def INT16ARRAY : Nat := 0x64
def UINT32ARRAY : Nat := 0x65
def INT32ARRAY : Nat := 0x66
def FLOAT32ARRAY : Nat := 0x67
def FLOAT64ARRAY : Nat := 0x68
def BIGINT64ARRAY : Nat := 0x69
def BIGUINT64ARRAY : Nat := 0x6A
def DATAVIEW : Nat := 0x6B
def ARRAYBUFFER : Nat := 0x70
def BUFFER_REF : Nat := 0x71
def SHAREDARRAYBUFFER : Nat := 0x72
def MAP : Nat := 0x80
def SET : Nat := 0x81
def DATE : Nat := 0x90
def DATE_INVALID : Nat := 0x91
def ERROR : Nat := 0xA0
def AGGREGATE_ERROR : Nat := 0xA7
def REGEXP : Nat := 0xB0
def BLOB : Nat := 0xC0
def FILE : Nat := 0xC1
def REFERENCE : Nat := 0xD0
def CIRCULAR_REF : Nat := 0xD1
def SYMBOL : Nat := 0xE0
def SYMBOL_GLOBAL : Nat := 0xE1
def SYMBOL_WELLKNOWN : Nat := 0xE2
def SYMBOL_NO_DESC : Nat := 0xE3
def FUNCTION_PLACEHOLDER : Nat := 0xF0

end TYPE

namespace TYPE_GROUP

def PRIMITIVE : Nat := 0x00
def NUMBER : Nat := 0x10
def BIGINT : Nat := 0x20
def STRING : Nat := 0x30
def ARRAY : Nat := 0x40
def OBJECT : Nat := 0x50
def TYPED : Nat := 0x60
def BUFFER : Nat := 0x70
def COLLECTION : Nat := 0x80
def DATE : Nat := 0x90
def ERROR : Nat := 0xA0
def REGEX : Nat := 0xB0
def BINARY : Nat := 0xC0
def REFERENCE : Nat := 0xD0
def SPECIAL : Nat := 0xE0
def EXTENSION : Nat := 0xF0

end TYPE_GROUP

/-- BYTES_PER_ELEMENT lookup table of the source (0 on tags with no entry). -/
def bytesPerElement (t : Nat) : Nat :=
  if t = TYPE.UINT8ARRAY ∨ t = TYPE.INT8ARRAY ∨ t = TYPE.UINT8CLAMPEDARRAY then 1
  else if t = TYPE.UINT16ARRAY ∨ t = TYPE.INT16ARRAY then 2
  else if t = TYPE.UINT32ARRAY ∨ t = TYPE.INT32ARRAY ∨ t = TYPE.FLOAT32ARRAY then 4
  else if t = TYPE.FLOAT64ARRAY ∨ t = TYPE.BIGINT64ARRAY ∨ t = TYPE.BIGUINT64ARRAY then 8
  else if t = TYPE.ARRAY_PACKED_I8 then 1
  else if t = TYPE.ARRAY_PACKED_I16 then 2
  else if t = TYPE.ARRAY_PACKED_I32 ∨ t = TYPE.ARRAY_PACKED_F32 then 4
  else if t = TYPE.ARRAY_PACKED_F64 then 8
  else 0

/-! ## IEEE-754 helpers (models of the host builtins used by the source) -/

/-- Structural helper: divide out factors of two (fuel-driven, fuel = m suffices). -/
def oddPartGo : Nat → Nat → Nat
  | 0, m => m
  | fuel + 1, m => if m % 2 = 0 ∧ m ≠ 0 then oddPartGo fuel (m / 2) else m

/-- Odd part of a natural number (0 for 0). -/
def oddPart (m : Nat) : Nat := oddPartGo m m

/-- Structural base-2 logarithm (fuel-driven, fuel = m suffices). -/
def log2Go : Nat → Nat → Nat
  | 0, _ => 0
  | fuel + 1, m => if m ≥ 2 then log2Go fuel (m / 2) + 1 else 0

/-- Base-2 logarithm of a natural number (0 for 0 and 1). -/
def log2N (m : Nat) : Nat := log2Go m m

/-- Model of the host test Math.fround(v) == v for a JS number holding the
integer v: v is exactly representable in binary32 iff its odd part fits the
24-bit significand and its magnitude does not exceed the largest finite
binary32 value (2^24 - 1) * 2^104. -/
def f32ExactInt (v : ℤ) : Bool :=
  v = 0 ∨ (oddPart v.natAbs < 2 ^ 24 ∧ v.natAbs ≤ (2 ^ 24 - 1) * 2 ^ 104)

/-- Model of the binary32 bit pattern the host DataView.setFloat32 stores for
an integer value; exact whenever the integer is exactly representable (the
only case the writer reaches, as it selects FLOAT32 via f32ExactInt). -/
def f32bits (v : ℤ) : Nat :=
  if v = 0 then 0
  else
    let s : Nat := if v < 0 then 1 else 0
    let m := v.natAbs
    let e := log2N m
    let mant := if e ≤ 23 then (m - 2 ^ e) * 2 ^ (23 - e) else m / 2 ^ (e - 23) - 2 ^ 23
    s * 2 ^ 31 + (e + 127) * 2 ^ 23 + mant

/-- Model of the binary64 bit pattern the host DataView.setFloat64 stores for
an integer value; exact for every integer of magnitude at most 2^53 (the
embedded number domain). -/
def f64bits (v : ℤ) : Nat :=
  if v = 0 then 0
  else
    let s : Nat := if v < 0 then 1 else 0
    let m := v.natAbs
    let e := log2N m
    let mant := if e ≤ 52 then (m - 2 ^ e) * 2 ^ (52 - e) else m / 2 ^ (e - 52) - 2 ^ 52
    s * 2 ^ 63 + (e + 1023) * 2 ^ 52 + mant

/-! ## Varint encoding (UltraMemoryPool.writeVarint, source lines 335-361) -/

/-- General-case loop of writeVarint: do push((v and 0x7F) or 0x80); v = v >>> 7
while v >= 0x80; then push v.  The loop body runs at most four times for
v < 2^32 (the writer first coerces with >>> 0), so fuel 5 is never exhausted. -/
def varintLoopGo (v : Nat) : Nat → List Nat
  | 0 => [v]
  | fuel + 1 =>
    let b := (v &&& 0x7F) ||| 0x80
    let v2 := v >>> 7
    if v2 ≥ 0x80 then b :: varintLoopGo v2 fuel else [b, v2]

/-- Byte sequence emitted by writeVarint for an already-coerced value. -/
def varintBytes (value : Nat) : List Nat :=
  if value < 0x80 then [value]
  else if value < 0x4000 then [(value &&& 0x7F) ||| 0x80, value >>> 7]
  else varintLoopGo value 5

/-! ## UltraMemoryPool: the growable aligned writer buffer -/

/-- Cache-line rounding (n + CACHE_LINE_SIZE - 1) & ~(CACHE_LINE_SIZE - 1),
written arithmetically; identical to the source for every size below 2^31,
the operating range of a JS ArrayBuffer. -/
def roundCacheLine (n : Nat) : Nat := (n + 127) - (n + 127) % 128

/-- Align an offset up: ((pos + mask) & ~mask) >>> 0 for mask = alignment - 1.
For a power-of-two alignment this clears the low bits of pos + alignment - 1,
written arithmetically.  The uint32 wrap of the source only differs once
pos + alignment - 1 reaches 2^32, beyond any buffer the host can address,
and is not modelled. -/
def alignTo (pos alignment : Nat) : Nat :=
  let x := pos + (alignment - 1)
  x - x % alignment

/-- Writer pool state: data holds the bytes written so far (so the append
cursor pos is data.length), size is the ensured capacity, and trace records
every multi-byte scalar store as (wire offset, width). -/
structure UltraMemoryPool where
  data : List Nat
  size : Nat
  trace : List (Nat × Nat)

namespace UltraMemoryPool

/-- Append cursor. -/
def pos (p : UltraMemoryPool) : Nat := p.data.length

/-- Fresh pool: size is the initial hint rounded up to a cache line. -/
def init (initialSize : Nat) : UltraMemoryPool :=
  { data := [], size := roundCacheLine initialSize, trace := [] }

/-- Capacity check with the doubling growth policy of the source
(newSize = max(size << 1, required + CACHE_LINE_SIZE), cache-line rounded). -/
def ensure (p : UltraMemoryPool) (bytes : Nat) : UltraMemoryPool :=
  let required := p.pos + bytes
  if required > p.size then
    { p with size := roundCacheLine (max (p.size * 2) (required + 128)) }
  else p

/-- Move the cursor to the next multiple of the alignment, zero-padding the
skipped bytes (the pool buffer is zero-initialised). -/
def alignPos (p : UltraMemoryPool) (alignment : Nat) : UltraMemoryPool :=
  { p with data := p.data ++ List.replicate (alignTo p.pos alignment - p.pos) 0 }

/-- Write one byte: value & 0xFF. -/
def writeU8 (p : UltraMemoryPool) (value : ℤ) : UltraMemoryPool :=
  let p := p.ensure 1
  { p with data := p.data ++ [(value % 256).toNat] }

/-- Little-endian bytes of the low width*8 bits of an integer (two's
complement for negative values, as a DataView store produces). -/
def leBytes (width : Nat) (value : ℤ) : List Nat :=
  (List.range width).map fun i => ((value % 2 ^ (8 * width)).toNat >>> (8 * i)) % 256

/-- Common body of the aligned multi-byte scalar writes (writeU16, writeI16,
writeU32, writeI32, writeF32, writeF64, writeBigInt64): align to the operand
width, ensure capacity, store little-endian, record the store in the trace. -/
def writeScalar (p : UltraMemoryPool) (width : Nat) (value : ℤ) : UltraMemoryPool :=
  let p := p.alignPos width
  let p := p.ensure width
  { p with data := p.data ++ leBytes width value, trace := p.trace ++ [(p.pos, width)] }

/-- Write unsigned 16-bit (setUint16 masks to 16 bits; same bytes as setInt16). -/
def writeU16 (p : UltraMemoryPool) (value : ℤ) : UltraMemoryPool := p.writeScalar 2 value

/-- Write signed 16-bit. -/
def writeI16 (p : UltraMemoryPool) (value : ℤ) : UltraMemoryPool := p.writeScalar 2 value

/-- Write unsigned 32-bit. -/
def writeU32 (p : UltraMemoryPool) (value : ℤ) : UltraMemoryPool := p.writeScalar 4 value

/-- Write signed 32-bit. -/
def writeI32 (p : UltraMemoryPool) (value : ℤ) : UltraMemoryPool := p.writeScalar 4 value

/-- Write a 32-bit float (the embedded number domain is integral, so the bit
pattern comes from f32bits). -/
def writeF32 (p : UltraMemoryPool) (value : ℤ) : UltraMemoryPool :=
  p.writeScalar 4 (f32bits value)

/-- Write a 64-bit float. -/
def writeF64 (p : UltraMemoryPool) (value : ℤ) : UltraMemoryPool :=
  p.writeScalar 8 (f64bits value)

/-- Write a 64-bit two's-complement integer. -/
def writeBigInt64 (p : UltraMemoryPool) (value : ℤ) : UltraMemoryPool :=
  p.writeScalar 8 value

/-- Write a varint: coerce with >>> 0, reserve five bytes of capacity, then
emit the byte groups. -/
def writeVarint (p : UltraMemoryPool) (value : ℤ) : UltraMemoryPool :=
  let v := (toUint32 value).toNat
  let p := p.ensure 5
  { p with data := p.data ++ varintBytes v }

/-- Bytes a packed-array element stores (per the typed-array views the source
writes through: |0 truncation for the int views, float bit patterns for the
float views). -/
def packedElemBytes (elementType : Nat) (v : ℤ) : List Nat :=
  if elementType = TYPE.ARRAY_PACKED_I8 then leBytes 1 v
  else if elementType = TYPE.ARRAY_PACKED_I16 then leBytes 2 (toInt32 v)
  else if elementType = TYPE.ARRAY_PACKED_I32 then leBytes 4 (toInt32 v)
  else if elementType = TYPE.ARRAY_PACKED_F32 then leBytes 4 (f32bits v)
  else leBytes 8 (f64bits v)

/-- Write a packed numeric array: varint length, align to
min(elementSize, 8), then len * elementSize raw little-endian element bytes.
Each element store is recorded in the trace. -/
def writePackedArray (p : UltraMemoryPool) (xs : List ℤ) (elementType : Nat) :
    UltraMemoryPool :=
  let len := xs.length
  let p := p.writeVarint len
  let elementSize := bytesPerElement elementType
  let p := p.alignPos (min elementSize 8)
  let p := p.ensure (len * elementSize)
  { p with
    data := p.data ++ xs.flatMap (packedElemBytes elementType),
    trace := p.trace ++ (List.range len).map fun i => (p.pos + i * elementSize, elementSize) }

/-- Write raw bytes aligned to min(elementSize, 8); the block is a sequence of
elementSize-wide element stores, recorded in the trace. -/
def writeBulkAligned (p : UltraMemoryPool) (bytes : List Nat) (elementSize : Nat) :
    UltraMemoryPool :=
  let alignment := min elementSize 8
  let p := p.alignPos alignment
  let p := p.ensure bytes.length
  { p with
    data := p.data ++ bytes,
    trace := p.trace ++ (List.range (bytes.length / elementSize)).map
      fun i => (p.pos + i * elementSize, elementSize) }

/-- Result of a serialisation pass: the live prefix of the buffer. -/
def getResult (p : UltraMemoryPool) : List Nat := p.data

end UltraMemoryPool

/-! ## The embedded value domain

The embedding covers the fragment of the dynamic value graph the claims are
about: primitives, integer-valued numbers, strings (lists of UTF-16 code
units), hole-free arrays, plain data objects (string keys, data properties
with default descriptors, no callables), and Uint8Array views.  Views carry
the identity of their backing ArrayBuffer as a label (two views alias the
same store iff they carry the same label), mirroring the identity-keyed
buffer table of the source.  Tree-shaped inputs have no shared heap nodes and
no cycles, so the pre-walk cycle detector finds nothing and identity lookups
in the object reference table always miss; the table is then observable only
through its size. -/
inductive Value where
  | vnull
  | vundefined
  | vbool (b : Bool)
  | vnum (n : ℤ)
  | vstr (s : List Nat)
  | varr (xs : List Value)
  | vobj (fields : List (List Nat × Value))
  | vu8view (bufLabel : Nat) (byteOffset : Nat) (bytes : List Nat)

/-- Model of the TextEncoder host builtin on UTF-16 code units: 1/2/3-byte
sequences for scalar values, surrogate pairs become 4-byte sequences, and
unpaired surrogates become the replacement character EF BF BD. -/
def utf8EncodeChar (c : Nat) : List Nat :=
  if c < 0x80 then [c]
  else if c < 0x800 then [0xC0 ||| (c >>> 6), 0x80 ||| (c &&& 0x3F)]
  else [0xE0 ||| (c >>> 12), 0x80 ||| ((c >>> 6) &&& 0x3F), 0x80 ||| (c &&& 0x3F)]

/-- UTF-8 encoding of a UTF-16 code-unit sequence (TextEncoder model). -/
def utf8Encode : List Nat → List Nat
  | [] => []
  | [c] => if c < 0xD800 ∨ 0xDFFF < c then utf8EncodeChar c else [0xEF, 0xBF, 0xBD]
  | c :: c2 :: rest2 =>
    if c < 0xD800 ∨ 0xDFFF < c then utf8EncodeChar c ++ utf8Encode (c2 :: rest2)
    else if 0xDC00 ≤ c then [0xEF, 0xBF, 0xBD] ++ utf8Encode (c2 :: rest2)
    else if 0xDC00 ≤ c2 ∧ c2 ≤ 0xDFFF then
      let cp := 0x10000 + (c - 0xD800) * 0x400 + (c2 - 0xDC00)
      [0xF0 ||| (cp >>> 18), 0x80 ||| ((cp >>> 12) &&& 0x3F),
        0x80 ||| ((cp >>> 6) &&& 0x3F), 0x80 ||| (cp &&& 0x3F)] ++ utf8Encode rest2
    else [0xEF, 0xBF, 0xBD] ++ utf8Encode (c2 :: rest2)

/-! ## SIMDProcessor: the numeric-array analyzer -/

/-- typeof v == 'number'. -/
def isNumber : Value → Bool
  | .vnum _ => true
  | _ => false

/-- Eligibility and sampling gate of SIMDProcessor.canOptimize: length at
least 8 and (a power of two or at least 16); the first element and every
sampled element (step max(1, len >>> 5)) must be numbers. -/
def canOptimize (array : List Value) : Bool :=
  let len := array.length
  let isGoodSize := decide (len ≥ 8) && (decide (len &&& (len - 1) = 0) || decide (len ≥ 16))
  if !isGoodSize then false
  else if !isNumber (array.getD 0 .vnull) then false
  else
    let sampleInterval := max 1 (len >>> 5)
    ((List.range len).filter fun i => decide (i ≠ 0) && decide (i % sampleInterval = 0)).all
      fun i => isNumber (array.getD i .vnull)

/-- Minimum of a numeric array; the source folds Math.min from an Infinity
seed, which for the nonempty arrays the analyzer receives equals folding from
the first element. -/
def arrayMin : List ℤ → ℤ
  | [] => 0
  | h :: t => t.foldl min h

/-- Maximum of a numeric array (Math.max fold from -Infinity). -/
def arrayMax : List ℤ → ℤ
  | [] => 0
  | h :: t => t.foldl max h

/-- The quantity max(|min|, |max|) the analyzer compares against the signed
integer ranges. -/
def arrayAbsMax (xs : List ℤ) : Nat := max (arrayMin xs).natAbs (arrayMax xs).natAbs

/-- SIMDProcessor.analyzeNumericArray (source lines 494-543) on an array of
numbers, here integer-valued: the all-integer flag tests val == (val | 0),
the float32 flag tests Math.fround round-trips, and the integer branch picks
from the table [I32, I8, I16, I32] at index typeIndex & 3 where typeIndex
packs the three range tests as bits.  The result is the wire tag; the
elementSize the source returns alongside is bytesPerElement of the tag. -/
def analyzeNumericArray (array : List ℤ) : Nat :=
  let isInteger := array.all fun val => val == toInt32 val
  let canBeFloat32 := array.all fun val => f32ExactInt val
  if isInteger then
    let absMax := arrayAbsMax array
    let typeIndex :=
      (if absMax ≤ 0x7F then 1 else 0) |||
      (if absMax ≤ 0x7FFF then 2 else 0) |||
      (if absMax ≤ 0x7FFFFFFF then 4 else 0)
    [TYPE.ARRAY_PACKED_I32, TYPE.ARRAY_PACKED_I8, TYPE.ARRAY_PACKED_I16,
      TYPE.ARRAY_PACKED_I32].getD (typeIndex &&& 3) TYPE.ARRAY_PACKED_I32
  else if canBeFloat32 then TYPE.ARRAY_PACKED_F32
  else TYPE.ARRAY_PACKED_F64

/-! ## UltraTypeDetector: the classifier -/

/-- UltraTypeDetector.detectNumber (source lines 651-689) restricted to the
integral domain: the NaN, infinity and negative-zero branches that precede
this code are unreachable for values holding mathematical integers.  The
integer branch indexes [VARINT, INT8, INT16, INT32] at min(typeIndex, 3). -/
def detectNumber (value : ℤ) : Nat :=
  let intValue := toInt32 value
  if value == intValue then
    let absValue := value.natAbs
    let typeIndex :=
      (if absValue ≤ 0x7F then 1 else 0) |||
      (if absValue ≤ 0x7FFF then 2 else 0) |||
      (if absValue ≤ 0x7FFFFFFF then 4 else 0)
    [TYPE.VARINT, TYPE.INT8, TYPE.INT16, TYPE.INT32].getD (min typeIndex 3) TYPE.INT32
  else if f32ExactInt value then TYPE.FLOAT32
  else TYPE.FLOAT64

/-- UltraTypeDetector.detectString: empty, then ASCII with length thresholds
16 and 256, else UTF-8 with the same thresholds on the encoded byte length. -/
def detectString (value : List Nat) : Nat :=
  let len := value.length
  if len = 0 then TYPE.STRING_EMPTY
  else if value.all fun c => c ≤ 0x7F then
    if len < 16 then TYPE.STRING_ASCII_TINY
    else if len < 256 then TYPE.STRING_ASCII_SHORT
    else TYPE.STRING_ASCII_LONG
  else
    let byteLength := (utf8Encode value).length
    if byteLength < 16 then TYPE.STRING_UTF8_TINY
    else if byteLength < 256 then TYPE.STRING_UTF8_SHORT
    else TYPE.STRING_UTF8_LONG

/-- Extract the numeric contents of an all-number array. -/
def numsOf : List Value → Option (List ℤ)
  | [] => some []
  | .vnum n :: rest => (numsOf rest).map (n :: ·)
  | _ => none

/-- UltraTypeDetector.detectArray on hole-free arrays: every index is filled,
so hasHoles is false and filledCount = len ≥ (len * 3) >>> 2, hence the
ARRAY_SPARSE branch cannot fire; then the SIMD gate and analyzer run.  An
array that passes the sampling gate while containing a non-number at an
unsampled index engages host numeric coercions and is outside the embedded
domain; the embedding returns ARRAY_DENSE for it. -/
def detectArray (arr : List Value) : Nat :=
  let len := arr.length
  if len = 0 then TYPE.ARRAY_EMPTY
  else if canOptimize arr then
    match numsOf arr with
    | some ns => analyzeNumericArray ns
    | none => TYPE.ARRAY_DENSE
  else TYPE.ARRAY_DENSE

/-- UltraTypeDetector.detect on the embedded domain.  Embedded objects are
plain data objects, for which classifyObject (source lines 813-863) returns
OBJECT_EMPTY when there are no own properties and OBJECT_LITERAL otherwise;
Uint8Array views dispatch through the typed-array name lookup. -/
def detect : Value → Nat
  | .vnull => TYPE.NULL
  | .vundefined => TYPE.UNDEFINED
  | .vbool b => if b then TYPE.TRUE else TYPE.FALSE
  | .vnum n => detectNumber n
  | .vstr s => detectString s
  | .varr xs => detectArray xs
  | .vobj fields => if fields.isEmpty then TYPE.OBJECT_EMPTY else TYPE.OBJECT_LITERAL
  | .vu8view _ _ _ => TYPE.UINT8ARRAY

/-! ## Writer driver -/

/-- Encoder session state: the pool plus the three reference tables.  For
tree-shaped inputs the identity-keyed object table never hits, so only its
size is observable; the string table is value-keyed (ids in first-seen order
among strings of length > 3); the buffer table maps backing-store labels to
ids in first-seen order. -/
structure WState where
  pool : UltraMemoryPool
  refsSize : Nat
  strings : List (List Nat)
  buffers : List Nat

/-- Payload emission of TurboSerial.writeString (after the tag byte):
single-byte length for TINY and SHORT, varint for LONG; ASCII bytes are the
code units, UTF-8 bodies go through writeBulkAligned with element size 1. -/
def writeStringPayload (value : List Nat) (t : Nat) (p : UltraMemoryPool) :
    UltraMemoryPool :=
  let len := value.length
  if t = TYPE.STRING_EMPTY then p
  else if t = TYPE.STRING_ASCII_TINY ∨ t = TYPE.STRING_ASCII_SHORT then
    value.foldl (fun p (c : Nat) => p.writeU8 c) (p.writeU8 len)
  else if t = TYPE.STRING_ASCII_LONG then
    value.foldl (fun p (c : Nat) => p.writeU8 c) (p.writeVarint len)
  else
    let encoded := utf8Encode value
    let p :=
      if t = TYPE.STRING_UTF8_TINY ∨ t = TYPE.STRING_UTF8_SHORT then
        p.writeU8 encoded.length
      else p.writeVarint encoded.length
    p.writeBulkAligned encoded 1

/-- The string branches of TurboSerial.writeValue: with deduplication on, a
string of length > 3 that is already in the table emits STRING_REF plus its
varint id; otherwise it is registered and emitted with its detected tag. -/
def writeStringValue (value : List Nat) (st : WState) : WState :=
  if value.length > 3 then
    match st.strings.findIdx? (fun s => s == value) with
    | some stringId =>
      let p := st.pool.writeU8 TYPE.STRING_REF
      { st with pool := p.writeVarint stringId }
    | none =>
      let st := { st with strings := st.strings ++ [value] }
      let t := detectString value
      { st with pool := writeStringPayload value t (st.pool.writeU8 t) }
  else
    let t := detectString value
    { st with pool := writeStringPayload value t (st.pool.writeU8 t) }

/-- Payload emission of TurboSerial.writeNumber (after the tag byte). -/
def writeNumber (value : ℤ) (t : Nat) (p : UltraMemoryPool) : UltraMemoryPool :=
  if t = TYPE.INT8 then p.writeU8 value
  else if t = TYPE.INT16 then p.writeI16 value
  else if t = TYPE.INT32 then p.writeI32 value
  else if t = TYPE.UINT32 then p.writeU32 value
  else if t = TYPE.FLOAT32 then p.writeF32 value
  else if t = TYPE.FLOAT64 then p.writeF64 value
  else if t = TYPE.VARINT then
    let isNegative := value < 0
    let p := p.writeVarint |value|
    p.writeU8 (if isNegative then 1 else 0)
  else p

/-- TurboSerial.writeTypedArray for a Uint8Array view (after the 0x60 tag):
with buffer sharing on, a view over an already-registered backing store emits
share-flag 1, the varint buffer id, byte offset and length; a first-seen
store is registered and emitted with share-flag 0, offset, length, and the
raw view bytes (element size 1). -/
def writeTypedArray (bufLabel byteOffset : Nat) (bytes : List Nat) (st : WState) :
    WState :=
  let length := bytes.length
  match st.buffers.findIdx? (fun l => l == bufLabel) with
  | some bufferId =>
    let p := st.pool.writeU8 1
    let p := p.writeVarint bufferId
    let p := p.writeVarint byteOffset
    { st with pool := p.writeVarint length }
  | none =>
    let st := { st with buffers := st.buffers ++ [bufLabel] }
    let p := st.pool.writeU8 0
    let p := p.writeVarint byteOffset
    let p := p.writeVarint length
    { st with pool := p.writeBulkAligned bytes 1 }

/-- Look up a field value by key: obj[key]. -/
def lookupField (fields : List (List Nat × Value)) (key : List Nat) : Value :=
  ((fields.find? fun kv => kv.1 == key).map fun kv => kv.2).getD .vundefined

/-- Lexicographic comparison of UTF-16 code-unit sequences, the default
Array.prototype.sort order on strings. -/
def lexLe : List Nat → List Nat → Bool
  | [], _ => true
  | _ :: _, [] => false
  | a :: xs, b :: ys => if a < b then true else if b < a then false else lexLe xs ys

/-- Insertion into a lexicographically sorted key list. -/
def insertSorted (k : List Nat) : List (List Nat) → List (List Nat)
  | [] => [k]
  | x :: xs => if lexLe k x then k :: x :: xs else x :: insertSorted k xs

/-- Model of serializableKeys.sort(): ascending lexicographic order (keys of
a JS object are distinct, so stability is immaterial). -/
def sortStrings : List (List Nat) → List (List Nat)
  | [] => []
  | x :: xs => insertSorted x (sortStrings xs)

/-- Fold a value writer over dense array elements. -/
def writeElems (f : Value → WState → WState) : List Value → WState → WState
  | [], st => st
  | v :: rest, st => writeElems f rest (f v st)

/-- Fold the per-key body of writeSimpleObject over the sorted keys: each key
is written through writeValue (hence through the string branches), then the
field value. -/
def writeKeys (f : Value → WState → WState) (fields : List (List Nat × Value)) :
    List (List Nat) → WState → WState
  | [], st => st
  | k :: rest, st =>
    let st := writeStringValue k st
    let st := f (lookupField fields k) st
    writeKeys f fields rest st

/-- TurboSerial.writeValue (source lines 1044-1145) on the embedded domain,
with the default option set (deduplication, buffer sharing, SIMD and cycle
detection on; function serialisation off).  On tree-shaped inputs the cycle
set is empty, so the CIRCULAR_REF branch never fires, and the identity lookup
of the object deduplication block always misses: the block only assigns the
next id.  The fuel argument bounds recursion depth; any fuel larger than the
nesting depth of the value gives the same output. -/
def writeValue : Nat → Value → WState → WState
  | 0, _, st => st
  | fuel + 1, value, st =>
    match value with
    | .vnull => { st with pool := st.pool.writeU8 TYPE.NULL }
    | .vundefined => { st with pool := st.pool.writeU8 TYPE.UNDEFINED }
    | .vbool b => { st with pool := st.pool.writeU8 (if b then TYPE.TRUE else TYPE.FALSE) }
    | .vnum n =>
      let t := detectNumber n
      { st with pool := writeNumber n t (st.pool.writeU8 t) }
    | .vstr s => writeStringValue s st
    | .varr xs =>
      let st := { st with refsSize := st.refsSize + 1 }
      let t := detectArray xs
      let st := { st with pool := st.pool.writeU8 t }
      if t = TYPE.ARRAY_EMPTY then st
      else if t = TYPE.ARRAY_DENSE then
        let st := { st with pool := st.pool.writeVarint xs.length }
        writeElems (writeValue fuel) xs st
      else
        { st with pool := st.pool.writePackedArray ((numsOf xs).getD []) t }
    | .vobj fields =>
      let st := { st with refsSize := st.refsSize + 1 }
      let t := if fields.isEmpty then TYPE.OBJECT_EMPTY else TYPE.OBJECT_LITERAL
      let st := { st with pool := st.pool.writeU8 t }
      if t = TYPE.OBJECT_EMPTY then st
      else
        let sortedKeys := sortStrings (fields.map fun kv => kv.1)
        let st := { st with pool := st.pool.writeVarint sortedKeys.length }
        writeKeys (writeValue fuel) fields sortedKeys st
    | .vu8view bufLabel byteOffset bytes =>
      let st := { st with refsSize := st.refsSize + 1 }
      let st := { st with pool := st.pool.writeU8 TYPE.UINT8ARRAY }
      writeTypedArray bufLabel byteOffset bytes st

/-- TurboSerial.serialize: reset state, write the 4-byte little-endian magic
0x54425235 and the version byte 5, run the cycle pre-walk (which marks
nothing on tree inputs), then write the root value. -/
def serializeState (fuel : Nat) (value : Value) : WState :=
  let pool := UltraMemoryPool.init 65536
  let pool := pool.writeU32 0x54425235
  let pool := pool.writeU8 5
  writeValue fuel value { pool := pool, refsSize := 0, strings := [], buffers := [] }

/-- Bytes returned by TurboSerial.serialize. -/
def serialize (fuel : Nat) (value : Value) : List Nat :=
  (serializeState fuel value).pool.getResult

/-! ## Reader driver

The decoded value domain mirrors what TurboSerial.readValue reconstructs.
Containers hold their decoded children; typed-array views reference an entry
of the decode-side buffer table by index (two views share a backing store iff
they reference the same entry); float payloads are kept as their raw
little-endian bit patterns. -/

inductive DValue where
  | dnull
  | dundefined
  | dbool (b : Bool)
  | dint (n : ℤ)
  | dnan
  | dinf
  | dneginf
  | dnegzero
  | df32 (bits : Nat)
  | df64 (bits : Nat)
  | dbigint (n : ℤ)
  | dstr (s : List Nat)
  | darr (xs : List DValue)
  | darrSparse (totalLength : Nat) (entries : List (Nat × DValue))
  | dobj (pairs : List (DValue × DValue))
  | dobjDesc (entries : List (DValue × Nat × List DValue))
  | dobjMethods (entries : List (DValue × Option DValue))
  | dobjCtor (name : DValue) (pairs : List (DValue × DValue))
  | dmap (pairs : List (DValue × DValue))
  | dset (xs : List DValue)
  | dtyped (etype : Nat) (bufferIdx : Nat) (byteOffset : Nat) (length : Nat)
  | dtypedBig (etype : Nat) (vals : List ℤ)
  | dbuffer (idx : Nat)
  | ddate (bits : Nat)
  | ddateInvalid
  | derr (etype : Nat) (message stack : DValue) (inner : List DValue)
  | dregex (src flags : DValue)
  | dbinary (size typeStr : Nat)
  | dsym (desc : DValue)
  | dsymNoDesc
  | dsymGlobal (key : DValue)
  | dsymWellknown (name : DValue)
  | dfunction

/-- Decode failures.  fuelOut is the marker of the explicit recursion bound of
the embedding and is proved unreachable for sufficient fuel; every other
constructor corresponds to a throw of the source (bufferUnderflow covers both
the explicit bounds checks and the end-of-buffer check; rangeError models the
host RangeError a DataView access or TypedArray construction raises). -/
inductive RErr where
  | fuelOut
  | bufferUnderflow
  | invalidMagic
  | unsupportedVersion (v : Nat)
  | invalidRef (id : Nat)
  | invalidStringRef (id : Nat)
  | invalidBufferRef (id : Nat)
  | unknownTag (t : Nat)
  | rangeError

/-- Decoder session state: the input bytes, the cursor, and the three
mirrored reference tables. -/
structure RState where
  buf : List Nat
  pos : Nat
  deserializeRefs : List DValue
  deserializeStrings : List (List Nat)
  deserializeBuffers : List (List Nat)

/-- Value of a little-endian byte sequence. -/
def leValue : List Nat → Nat
  | [] => 0
  | b :: rest => b + 256 * leValue rest

/-- Two's-complement reading of a width-byte value. -/
def toSigned (width : Nat) (m : Nat) : ℤ :=
  if m < 2 ^ (8 * width - 1) then (m : ℤ) else (m : ℤ) - 2 ^ (8 * width)

/-- The next n input bytes. -/
def bytesAt (st : RState) (n : Nat) : List Nat := (st.buf.drop st.pos).take n

/-- TurboSerial.readU8 with its ensureBytes check. -/
def readU8 (st : RState) : Except RErr (Nat × RState) :=
  if st.pos + 1 > st.buf.length then .error .bufferUnderflow
  else .ok (st.buf.getD st.pos 0, { st with pos := st.pos + 1 })

/-- The reader-side alignPos. -/
def readAlign (st : RState) (alignment : Nat) : RState :=
  { st with pos := alignTo st.pos alignment }

/-- Common body of the aligned multi-byte reads (readI16, readU16, readI32,
readU32, readF32, readF64, readBigInt64): align to the operand width, check
bounds, read little-endian. -/
def readScalar (width : Nat) (st : RState) : Except RErr (Nat × RState) :=
  let st := readAlign st width
  if st.pos + width > st.buf.length then .error .bufferUnderflow
  else .ok (leValue (bytesAt st width), { st with pos := st.pos + width })

/-- Accumulation loop of TurboSerial.readVarint over the remaining input:
value |= (byte & 0x7F) << shift with JS int32 shift/or semantics, one byte
per iteration while the continuation bit is set.  Returns the accumulated
value and the number of bytes consumed. -/
def readVarintAux : List Nat → ℤ → Nat → Option (ℤ × Nat)
  | [], _, _ => none
  | byte :: rest, value, shift =>
    let value := jsOr32 value (jsShl32 ((byte &&& 0x7F : Nat) : ℤ) shift)
    if byte &&& 0x80 ≠ 0 then
      (readVarintAux rest value (shift + 7)).map fun r => (r.1, r.2 + 1)
    else some (value, 1)

/-- TurboSerial.readVarint: the loop above, final value coerced with >>> 0. -/
def readVarint (st : RState) : Except RErr (Nat × RState) :=
  match readVarintAux (st.buf.drop st.pos) 0 0 with
  | none => .error .bufferUnderflow
  | some (value, consumed) =>
    .ok ((toUint32 value).toNat, { st with pos := st.pos + consumed })

/-- TurboSerial.readPrimitive. -/
def readPrimitive (t : Nat) (st : RState) : Except RErr (DValue × RState) :=
  if t = TYPE.NULL then .ok (.dnull, st)
  else if t = TYPE.UNDEFINED then .ok (.dundefined, st)
  else if t = TYPE.FALSE then .ok (.dbool false, st)
  else if t = TYPE.TRUE then .ok (.dbool true, st)
  else .error (.unknownTag t)

/-- TurboSerial.readNumber.  The INT8 case reads through view.getInt8 with no
explicit ensureBytes; the host DataView itself range-checks, modelled as
rangeError. -/
def readNumber (t : Nat) (st : RState) : Except RErr (DValue × RState) :=
  if t = TYPE.INT8 then
    if st.pos + 1 > st.buf.length then .error .rangeError
    else .ok (.dint (toSigned 1 (st.buf.getD st.pos 0)), { st with pos := st.pos + 1 })
  else if t = TYPE.INT16 then do
    let (m, st) ← readScalar 2 st
    .ok (.dint (toSigned 2 m), st)
  else if t = TYPE.INT32 then do
    let (m, st) ← readScalar 4 st
    .ok (.dint (toSigned 4 m), st)
  else if t = TYPE.UINT32 then do
    let (m, st) ← readScalar 4 st
    .ok (.dint m, st)
  else if t = TYPE.FLOAT32 then do
    let (m, st) ← readScalar 4 st
    .ok (.df32 m, st)
  else if t = TYPE.FLOAT64 then do
    let (m, st) ← readScalar 8 st
    .ok (.df64 m, st)
  else if t = TYPE.NAN then .ok (.dnan, st)
  else if t = TYPE.INFINITY then .ok (.dinf, st)
  else if t = TYPE.NEG_INFINITY then .ok (.dneginf, st)
  else if t = TYPE.NEG_ZERO then .ok (.dnegzero, st)
  else if t = TYPE.VARINT then do
    let (value, st) ← readVarint st
    let (isNegative, st) ← readU8 st
    .ok (.dint (if isNegative ≠ 0 then -(value : ℤ) else (value : ℤ)), st)
  else .error (.unknownTag t)

/-- TurboSerial.readBigInt / readBigInt64 / readLargeBigInt; the large form
reads a varint byte count and a little-endian magnitude. -/
def readBigInt (t : Nat) (st : RState) : Except RErr (DValue × RState) :=
  if t = TYPE.BIGINT_POS_SMALL ∨ t = TYPE.BIGINT_NEG_SMALL then do
    let (m, st) ← readScalar 8 st
    .ok (.dbigint (toSigned 8 m), st)
  else if t = TYPE.BIGINT_POS_LARGE ∨ t = TYPE.BIGINT_NEG_LARGE then do
    let (byteLength, st) ← readVarint st
    if st.pos + byteLength > st.buf.length then .error .bufferUnderflow
    else
      let magnitude := leValue (bytesAt st byteLength)
      let st := { st with pos := st.pos + byteLength }
      .ok (.dbigint (if t = TYPE.BIGINT_NEG_LARGE then -(magnitude : ℤ) else (magnitude : ℤ)), st)
  else .error (.unknownTag t)

/-- TurboSerial.readString: empty returns at once without touching the string
table; TINY and SHORT lengths are one byte, every other subtype (including
the two LONG forms) reads a varint; the decoded string is appended to the
string table.  The ASCII branch builds the string from the raw bytes; for the
UTF-8 branch the embedding keeps the undecoded bytes (the TextDecoder host
builtin is not modelled; no claim concerns non-ASCII string contents). -/
def readString (t : Nat) (st : RState) : Except RErr (DValue × RState) :=
  if t = TYPE.STRING_EMPTY then .ok (.dstr [], st)
  else do
    let (length, st) ←
      if t = TYPE.STRING_ASCII_TINY ∨ t = TYPE.STRING_ASCII_SHORT ∨
          t = TYPE.STRING_UTF8_TINY ∨ t = TYPE.STRING_UTF8_SHORT then readU8 st
      else readVarint st
    if st.pos + length > st.buf.length then .error .bufferUnderflow
    else
      let s := bytesAt st length
      let st := { st with
        pos := st.pos + length
        deserializeStrings := st.deserializeStrings ++ [s] }
      .ok (.dstr s, st)

/-- Split length elements of the given width off a raw byte block. -/
def chunksOf (width : Nat) : Nat → List Nat → List (List Nat)
  | 0, _ => []
  | n + 1, bytes => bytes.take width :: chunksOf width n (bytes.drop width)

/-- Element decoding of readPackedArrayData: signed little-endian for the
integer forms, raw bit patterns for the float forms. -/
def packedElements (t : Nat) (length : Nat) (raw : List Nat) : List DValue :=
  (chunksOf (bytesPerElement t) length raw).map fun chunk =>
    if t = TYPE.ARRAY_PACKED_I8 then .dint (toSigned 1 (leValue chunk))
    else if t = TYPE.ARRAY_PACKED_I16 then .dint (toSigned 2 (leValue chunk))
    else if t = TYPE.ARRAY_PACKED_I32 then .dint (toSigned 4 (leValue chunk))
    else if t = TYPE.ARRAY_PACKED_F32 then .df32 (leValue chunk)
    else .df64 (leValue chunk)

/-- TurboSerial.readPackedArrayData: varint length, align to
min(elementSize, 8), bounds-check length * elementSize, then read the
elements.  Only called with the five packed tags, whose element sizes are
nonzero. -/
def readPackedArrayData (t : Nat) (st : RState) :
    Except RErr (List DValue × RState) := do
  let (length, st) ← readVarint st
  let elementSize := bytesPerElement t
  let st := readAlign st (min elementSize 8)
  if st.pos + length * elementSize > st.buf.length then .error .bufferUnderflow
  else
    let raw := bytesAt st (length * elementSize)
    let st := { st with pos := st.pos + length * elementSize }
    .ok (packedElements t length raw, st)

/-- Element width used by the host TypedArray / DataView constructors in
TurboSerial.createTypedArray (0 for a tag with no constructor). -/
def typedElementSize (t : Nat) : Nat :=
  if t = TYPE.UINT8ARRAY ∨ t = TYPE.INT8ARRAY ∨ t = TYPE.UINT8CLAMPEDARRAY then 1
  else if t = TYPE.UINT16ARRAY ∨ t = TYPE.INT16ARRAY then 2
  else if t = TYPE.UINT32ARRAY ∨ t = TYPE.INT32ARRAY ∨ t = TYPE.FLOAT32ARRAY then 4
  else if t = TYPE.FLOAT64ARRAY ∨ t = TYPE.BIGINT64ARRAY ∨ t = TYPE.BIGUINT64ARRAY then 8
  else if t = TYPE.DATAVIEW then 1
  else 0

/-- TurboSerial.createTypedArray: unknown tags throw; otherwise the host
constructor new C(buffer, byteOffset, length) raises RangeError unless the
offset is element-aligned and offset + length * elementSize fits the buffer. -/
def createTypedArray (t : Nat) (bufferIdx byteOffset length : Nat) (st : RState) :
    Except RErr DValue :=
  let es := typedElementSize t
  if es = 0 then .error (.unknownTag t)
  else
    let bufLen := (st.deserializeBuffers.getD bufferIdx []).length
    if byteOffset % es ≠ 0 ∨ byteOffset + length * es > bufLen then .error .rangeError
    else .ok (.dtyped t bufferIdx byteOffset length)

/-- Aligned 64-bit reads of the big-integer typed-array loop. -/
def readBigInt64Values : Nat → RState → Except RErr (List ℤ × RState)
  | 0, st => .ok ([], st)
  | n + 1, st => do
    let (m, st) ← readScalar 8 st
    let (vs, st) ← readBigInt64Values n st
    .ok (toSigned 8 m :: vs, st)

/-- TurboSerial.readTypedArray (source lines 2201-2248).  The shared branch
checks the buffer id against the table and builds a view over the referenced
store.  The non-shared branch reads only the view's own bytes into a fresh
backing buffer of exactly that size, registers it, and builds the view at
offset 0 (discarding the original byte offset). -/
def readTypedArray (t : Nat) (st : RState) : Except RErr (DValue × RState) := do
  let (isShared, st) ← readU8 st
  if isShared ≠ 0 then do
    let (bufferId, st) ← readVarint st
    let (byteOffset, st) ← readVarint st
    let (length, st) ← readVarint st
    if st.deserializeBuffers.length ≤ bufferId then .error (.invalidBufferRef bufferId)
    else do
      let v ← createTypedArray t bufferId byteOffset length st
      .ok (v, st)
  else do
    let (_byteOffset, st) ← readVarint st
    let (length, st) ← readVarint st
    let elementSize := max (bytesPerElement t) 1
    if t = TYPE.BIGINT64ARRAY ∨ t = TYPE.BIGUINT64ARRAY then do
      let st := readAlign st 8
      let (vals, st) ← readBigInt64Values length st
      .ok (.dtypedBig t vals, st)
    else
      let totalBytes := length * elementSize
      let st := readAlign st elementSize
      if st.pos + totalBytes > st.buf.length then .error .bufferUnderflow
      else do
        let data := bytesAt st totalBytes
        let bufferIdx := st.deserializeBuffers.length
        let st := { st with
          pos := st.pos + totalBytes
          deserializeBuffers := st.deserializeBuffers ++ [data] }
        let v ← createTypedArray t bufferIdx 0 length st
        .ok (v, st)

/-- TurboSerial.readArrayBuffer (also used for every other BUFFER-group
subtype): varint length, raw bytes, sliced into a fresh buffer that is
appended to the buffer table. -/
def readArrayBuffer (st : RState) : Except RErr (DValue × RState) := do
  let (length, st) ← readVarint st
  if st.pos + length > st.buf.length then .error .bufferUnderflow
  else
    let data := bytesAt st length
    let bufferIdx := st.deserializeBuffers.length
    let st := { st with
      pos := st.pos + length
      deserializeBuffers := st.deserializeBuffers ++ [data] }
    .ok (.dbuffer bufferIdx, st)

/-- TurboSerial.readDate. -/
def readDate (t : Nat) (st : RState) : Except RErr (DValue × RState) :=
  if t = TYPE.DATE then do
    let (bits, st) ← readScalar 8 st
    .ok (.ddate bits, st)
  else if t = TYPE.DATE_INVALID then .ok (.ddateInvalid, st)
  else .error (.unknownTag t)

/-- TurboSerial.readBinary: two varints, reconstructed as a plain
placeholder object. -/
def readBinary (st : RState) : Except RErr (DValue × RState) := do
  let (size, st) ← readVarint st
  let (typeStr, st) ← readVarint st
  .ok (.dbinary size typeStr, st)

/-- TurboSerial.readExtension. -/
def readExtension (t : Nat) (st : RState) : Except RErr (DValue × RState) :=
  if t = TYPE.FUNCTION_PLACEHOLDER then .ok (.dfunction, st)
  else .error (.unknownTag t)

/-- Values of typeof 'object' (and not null): after a non-container payload
is decoded, readValue appends exactly these to the reference table.  Strings,
numbers, bigints, booleans, symbols and functions are not registered. -/
def isHeapObject : DValue → Bool
  | .darr _ => true
  | .darrSparse _ _ => true
  | .dobj _ => true
  | .dobjDesc _ => true
  | .dobjMethods _ => true
  | .dobjCtor _ _ => true
  | .dmap _ => true
  | .dset _ => true
  | .dtyped _ _ _ _ => true
  | .dtypedBig _ _ => true
  | .dbuffer _ => true
  | .ddate _ => true
  | .ddateInvalid => true
  | .derr _ _ _ _ => true
  | .dregex _ _ => true
  | .dbinary _ _ => true
  | _ => false

/-! ### Loop combinators of the reader

Each loop of the source (array fill, object fill, collection fill) is a
recursion on the decoded element count; the recursive value read is passed in
as a function so that readValue itself stays structurally recursive on its
fuel. -/

/-- Read n values (the ARRAY_DENSE fill and the SET fill). -/
def readMany (rv : RState → Except RErr (DValue × RState)) :
    Nat → RState → Except RErr (List DValue × RState)
  | 0, st => .ok ([], st)
  | n + 1, st => do
    let (v, st) ← rv st
    let (vs, st) ← readMany rv n st
    .ok (v :: vs, st)

/-- Read n key/value pairs (simple objects, constructor objects, maps). -/
def readPairs (rv : RState → Except RErr (DValue × RState)) :
    Nat → RState → Except RErr (List (DValue × DValue) × RState)
  | 0, st => .ok ([], st)
  | n + 1, st => do
    let (k, st) ← rv st
    let (v, st) ← rv st
    let (ps, st) ← readPairs rv n st
    .ok ((k, v) :: ps, st)

/-- Read n sparse-array entries (varint index, then the value). -/
def readSparseEntries (rv : RState → Except RErr (DValue × RState)) :
    Nat → RState → Except RErr (List (Nat × DValue) × RState)
  | 0, st => .ok ([], st)
  | n + 1, st => do
    let (index, st) ← readVarint st
    let (v, st) ← rv st
    let (es, st) ← readSparseEntries rv n st
    .ok ((index, v) :: es, st)

/-- Read n descriptor entries (key, flag byte, then getter and/or setter when
bits 3-4 are set, else the data value). -/
def readDescEntries (rv : RState → Except RErr (DValue × RState)) :
    Nat → RState → Except RErr (List (DValue × Nat × List DValue) × RState)
  | 0, st => .ok ([], st)
  | n + 1, st => do
    let (key, st) ← rv st
    let (flags, st) ← readU8 st
    if flags &&& 8 ≠ 0 ∨ flags &&& 16 ≠ 0 then do
      let (getters, st) ←
        if flags &&& 8 ≠ 0 then do
          let (g, st) ← rv st
          pure ([g], st)
        else pure ([], st)
      let (setters, st) ←
        if flags &&& 16 ≠ 0 then do
          let (s, st) ← rv st
          pure ([s], st)
        else pure ([], st)
      let (es, st) ← readDescEntries rv n st
      .ok ((key, flags, getters ++ setters) :: es, st)
    else do
      let (v, st) ← rv st
      let (es, st) ← readDescEntries rv n st
      .ok ((key, flags, [v]) :: es, st)

/-- Read n method-object entries (key, is-function byte; with the default
configuration serializeFunctions is off, so a function entry consumes the
placeholder marker byte and reconstructs a throwing stub, modelled none). -/
def readMethodEntries (rv : RState → Except RErr (DValue × RState)) :
    Nat → RState → Except RErr (List (DValue × Option DValue) × RState)
  | 0, st => .ok ([], st)
  | n + 1, st => do
    let (key, st) ← rv st
    let (isFunction, st) ← readU8 st
    if isFunction ≠ 0 then do
      let (_, st) ← readU8 st
      let (es, st) ← readMethodEntries rv n st
      .ok ((key, none) :: es, st)
    else do
      let (v, st) ← rv st
      let (es, st) ← readMethodEntries rv n st
      .ok ((key, some v) :: es, st)

/-- TurboSerial.fillArray: the shell is an empty array; unknown ARRAY
subtypes fall through the switch and leave it empty. -/
def fillArray (rv : RState → Except RErr (DValue × RState)) (t : Nat) (st : RState) :
    Except RErr (DValue × RState) :=
  if t = TYPE.ARRAY_EMPTY then .ok (.darr [], st)
  else if t = TYPE.ARRAY_DENSE then do
    let (length, st) ← readVarint st
    let (vs, st) ← readMany rv length st
    .ok (.darr vs, st)
  else if t = TYPE.ARRAY_SPARSE then do
    let (totalLength, st) ← readVarint st
    let (elementCount, st) ← readVarint st
    let (es, st) ← readSparseEntries rv elementCount st
    .ok (.darrSparse totalLength es, st)
  else if t = TYPE.ARRAY_PACKED_I8 ∨ t = TYPE.ARRAY_PACKED_I16 ∨
      t = TYPE.ARRAY_PACKED_I32 ∨ t = TYPE.ARRAY_PACKED_F32 ∨
      t = TYPE.ARRAY_PACKED_F64 then do
    let (vs, st) ← readPackedArrayData t st
    .ok (.darr vs, st)
  else .ok (.darr [], st)

/-- TurboSerial.fillObject and its four fill helpers; unknown OBJECT subtypes
fall through and leave the shell empty. -/
def fillObject (rv : RState → Except RErr (DValue × RState)) (t : Nat) (st : RState) :
    Except RErr (DValue × RState) :=
  if t = TYPE.OBJECT_EMPTY then .ok (.dobj [], st)
  else if t = TYPE.OBJECT_LITERAL ∨ t = TYPE.OBJECT_PLAIN then do
    let (keyCount, st) ← readVarint st
    let (ps, st) ← readPairs rv keyCount st
    .ok (.dobj ps, st)
  else if t = TYPE.OBJECT_WITH_DESCRIPTORS then do
    let (keyCount, st) ← readVarint st
    let (es, st) ← readDescEntries rv keyCount st
    .ok (.dobjDesc es, st)
  else if t = TYPE.OBJECT_WITH_METHODS then do
    let (entryCount, st) ← readVarint st
    let (es, st) ← readMethodEntries rv entryCount st
    .ok (.dobjMethods es, st)
  else if t = TYPE.OBJECT_CONSTRUCTOR then do
    let (name, st) ← rv st
    let (keyCount, st) ← readVarint st
    let (ps, st) ← readPairs rv keyCount st
    .ok (.dobjCtor name ps, st)
  else .ok (.dobj [], st)

/-- TurboSerial.fillCollection: the size varint is read before the subtype
switch, so an unknown COLLECTION subtype still consumes it. -/
def fillCollection (rv : RState → Except RErr (DValue × RState)) (t : Nat) (st : RState) :
    Except RErr (DValue × RState) := do
  let (size, st) ← readVarint st
  if t = TYPE.MAP then do
    let (ps, st) ← readPairs rv size st
    .ok (.dmap ps, st)
  else if t = TYPE.SET then do
    let (vs, st) ← readMany rv size st
    .ok (.dset vs, st)
  else .ok (.dundefined, st)

/-- The early-registration update: a filled container replaces its shell
entry in the reference table (in the source the shell is mutated in place). -/
def registerShell (id : Nat) (r : Except RErr (DValue × RState)) :
    Except RErr (DValue × RState) :=
  match r with
  | .error e => .error e
  | .ok (v, st2) =>
    .ok (v, { st2 with deserializeRefs := st2.deserializeRefs.set id v })

/-- Appending a freshly decoded heap object to the reference table. -/
def registerHeap (r : Except RErr (DValue × RState)) :
    Except RErr (DValue × RState) :=
  match r with
  | .error e => .error e
  | .ok (v, st1) =>
    .ok (v, if isHeapObject v then
      { st1 with deserializeRefs := st1.deserializeRefs ++ [v] } else st1)

/-- TurboSerial.readValue (source lines 1690-1820), structurally recursive on
an explicit fuel.  Reference tags are handled first with their table checks;
ARRAY / OBJECT / COLLECTION groups pre-register a shell before filling (the
shell entry is replaced by the filled value, which in the source is the same
mutated object); every other group decodes its payload and appends the result
to the reference table when it is a heap object. -/
def readValue : Nat → RState → Except RErr (DValue × RState)
  | 0, _ => .error .fuelOut
  | fuel + 1, st =>
    if st.pos ≥ st.buf.length then .error .bufferUnderflow
    else
      let t := st.buf.getD st.pos 0
      let st0 : RState := { st with pos := st.pos + 1 }
      if t = TYPE.REFERENCE ∨ t = TYPE.CIRCULAR_REF then do
        let (refId, st1) ← readVarint st0
        if st1.deserializeRefs.length ≤ refId then .error (.invalidRef refId)
        else .ok (st1.deserializeRefs.getD refId .dnull, st1)
      else if t = TYPE.STRING_REF then do
        let (stringId, st1) ← readVarint st0
        if st1.deserializeStrings.length ≤ stringId then .error (.invalidStringRef stringId)
        else .ok (.dstr (st1.deserializeStrings.getD stringId []), st1)
      else if t = TYPE.BUFFER_REF then do
        let (bufferId, st1) ← readVarint st0
        if st1.deserializeBuffers.length ≤ bufferId then .error (.invalidBufferRef bufferId)
        else .ok (.dbuffer bufferId, st1)
      else
        let group := t &&& 0xF0
        if group = TYPE_GROUP.ARRAY then
          let id := st0.deserializeRefs.length
          let st1 := { st0 with deserializeRefs := st0.deserializeRefs ++ [DValue.darr []] }
          registerShell id (fillArray (readValue fuel) t st1)
        else if group = TYPE_GROUP.OBJECT then
          let id := st0.deserializeRefs.length
          let st1 := { st0 with deserializeRefs := st0.deserializeRefs ++ [DValue.dobj []] }
          registerShell id (fillObject (readValue fuel) t st1)
        else if group = TYPE_GROUP.COLLECTION then
          if t = TYPE.MAP ∨ t = TYPE.SET then
            let id := st0.deserializeRefs.length
            let shell : DValue := if t = TYPE.MAP then .dmap [] else .dset []
            let st1 := { st0 with deserializeRefs := st0.deserializeRefs ++ [shell] }
            registerShell id (fillCollection (readValue fuel) t st1)
          else
            -- unknown collection subtype: no shell is allocated or registered,
            -- but fillCollection still consumes the size varint
            fillCollection (readValue fuel) t st0
        else registerHeap (
            if group = TYPE_GROUP.PRIMITIVE then readPrimitive t st0
            else if group = TYPE_GROUP.NUMBER then readNumber t st0
            else if group = TYPE_GROUP.BIGINT then readBigInt t st0
            else if group = TYPE_GROUP.STRING then readString t st0
            else if group = TYPE_GROUP.TYPED then readTypedArray t st0
            else if group = TYPE_GROUP.BUFFER then readArrayBuffer st0
            else if group = TYPE_GROUP.DATE then readDate t st0
            else if group = TYPE_GROUP.ERROR then do
              let (message, st1) ← readValue fuel st0
              let (stack, st1) ← readValue fuel st1
              if t = TYPE.AGGREGATE_ERROR then do
                let (errorCount, st1) ← readVarint st1
                let (inner, st1) ← readMany (readValue fuel) errorCount st1
                .ok (.derr t message stack inner, st1)
              else .ok (.derr t message stack [], st1)
            else if group = TYPE_GROUP.REGEX then do
              let (src, st1) ← readValue fuel st0
              let (flags, st1) ← readValue fuel st1
              .ok (.dregex src flags, st1)
            else if group = TYPE_GROUP.BINARY then readBinary st0
            else if group = TYPE_GROUP.SPECIAL then
              if t = TYPE.SYMBOL then do
                let (description, st1) ← readValue fuel st0
                .ok (.dsym description, st1)
              else if t = TYPE.SYMBOL_NO_DESC then .ok (.dsymNoDesc, st0)
              else if t = TYPE.SYMBOL_GLOBAL then do
                let (key, st1) ← readValue fuel st0
                .ok (.dsymGlobal key, st1)
              else if t = TYPE.SYMBOL_WELLKNOWN then do
                let (name, st1) ← readValue fuel st0
                .ok (.dsymWellknown name, st1)
              else .error (.unknownTag t)
            else if group = TYPE_GROUP.EXTENSION then readExtension t st0
            else .error (.unknownTag t))

/-- TurboSerial.deserialize: fresh decode state, magic and version checks,
then the root value.  The fuel supplied to readValue is the input length plus
one, which is proved sufficient. -/
def deserialize (input : List Nat) : Except RErr DValue := do
  let st : RState :=
    { buf := input, pos := 0, deserializeRefs := [],
      deserializeStrings := [], deserializeBuffers := [] }
  let (magic, st) ← readScalar 4 st
  if magic ≠ 0x54425235 then .error .invalidMagic
  else do
    let (version, st) ← readU8 st
    if version ≠ 5 then .error (.unsupportedVersion version)
    else do
      let (value, _) ← readValue (input.length + 1) st
      .ok value

/-! ## Basic facts about the JS coercions and the classifier -/

/-- The fixed points of ToInt32 are exactly the signed 32-bit range. -/
theorem toInt32_fixed_iff (x : ℤ) : toInt32 x = x ↔ -(2 ^ 31) ≤ x ∧ x < 2 ^ 31 := by
  simp only [toInt32]
  constructor
  · intro h
    split at h <;> omega
  · intro ⟨h1, h2⟩
    split <;> omega

/-- On its integer branch (value == value | 0), detectNumber collapses to
INT32 for every value except -2^31, which alone falls through all three
range tests (its absolute value exceeds 0x7FFFFFFF) and lands on VARINT:
min(typeIndex, 3) sends each of the reachable bit patterns 7, 6 and 4 to
table index 3. -/
theorem detectNumber_int32_fixed (x : ℤ) (h : toInt32 x = x) :
    detectNumber x = if x = -(2 ^ 31) then TYPE.VARINT else TYPE.INT32 := by
  have hrange : -(2 ^ 31) ≤ x ∧ x < 2 ^ 31 := (toInt32_fixed_iff x).mp h
  simp only [detectNumber, h, beq_self_eq_true, if_true]
  by_cases hx : x = -(2 ^ 31)
  · subst hx
    decide
  · rw [if_neg hx]
    have habs : x.natAbs ≤ 0x7FFFFFFF := by omega
    by_cases h1 : x.natAbs ≤ 0x7F
    · have h2 : x.natAbs ≤ 0x7FFF := by omega
      rw [if_pos h1, if_pos h2, if_pos habs]
      decide
    · by_cases h2 : x.natAbs ≤ 0x7FFF
      · rw [if_neg h1, if_pos h2, if_pos habs]
        decide
      · rw [if_neg h1, if_neg h2, if_pos habs]
        decide

/-! ## Capacity facts for the writer pool -/

/-- Cache-line rounding does not shrink. -/
theorem roundCacheLine_ge (n : Nat) : n ≤ roundCacheLine n := by
  unfold roundCacheLine
  omega

/-- ensure leaves the buffer contents (hence the cursor) unchanged and
establishes capacity for the requested bytes. -/
theorem ensure_spec (p : UltraMemoryPool) (bytes : Nat) :
    (p.ensure bytes).data = p.data ∧ (p.ensure bytes).trace = p.trace ∧
      p.pos + bytes ≤ (p.ensure bytes).size := by
  unfold UltraMemoryPool.ensure
  dsimp only
  split
  · refine ⟨rfl, rfl, ?_⟩
    calc p.pos + bytes
        ≤ p.pos + bytes + 128 := by omega
      _ ≤ max (p.size * 2) (p.pos + bytes + 128) := le_max_right _ _
      _ ≤ roundCacheLine (max (p.size * 2) (p.pos + bytes + 128)) := roundCacheLine_ge _
  · next hle => exact ⟨rfl, rfl, by omega⟩

/-- The varint loop emits two bytes when the shifted value fits 4 bits. -/
theorem varintLoopGo_len2 (v : Nat) (h : v < 2 ^ 11) :
    (varintLoopGo v 2).length ≤ 2 := by
  unfold varintLoopGo
  have hv : v >>> 7 < 0x80 := by
    rw [Nat.shiftRight_eq_div_pow]
    omega
  dsimp only
  rw [if_neg (by omega)]
  simp

/-- Loop length bound at fuel 3. -/
theorem varintLoopGo_len3 (v : Nat) (h : v < 2 ^ 18) :
    (varintLoopGo v 3).length ≤ 3 := by
  unfold varintLoopGo
  have hv : v >>> 7 < 2 ^ 11 := by
    rw [Nat.shiftRight_eq_div_pow]
    omega
  dsimp only
  split
  · simpa using Nat.succ_le_succ (varintLoopGo_len2 _ hv)
  · simp

/-- Loop length bound at fuel 4. -/
theorem varintLoopGo_len4 (v : Nat) (h : v < 2 ^ 25) :
    (varintLoopGo v 4).length ≤ 4 := by
  unfold varintLoopGo
  have hv : v >>> 7 < 2 ^ 18 := by
    rw [Nat.shiftRight_eq_div_pow]
    omega
  dsimp only
  split
  · simpa using Nat.succ_le_succ (varintLoopGo_len3 _ hv)
  · simp

/-- Loop length bound at fuel 5 (the fuel writeVarint uses). -/
theorem varintLoopGo_len5 (v : Nat) (h : v < 2 ^ 32) :
    (varintLoopGo v 5).length ≤ 5 := by
  unfold varintLoopGo
  have hv : v >>> 7 < 2 ^ 25 := by
    rw [Nat.shiftRight_eq_div_pow]
    omega
  dsimp only
  split
  · simpa using Nat.succ_le_succ (varintLoopGo_len4 _ hv)
  · simp

/-- Any value below 2^32 encodes to at most five varint bytes. -/
theorem varintBytes_length (u : Nat) (h : u < 2 ^ 32) :
    (varintBytes u).length ≤ 5 := by
  unfold varintBytes
  split
  · simp
  · split
    · simp
    · exact varintLoopGo_len5 u h

/-- ToUint32 is the identity below 2^32. -/
theorem toUint32_of_lt (u : Nat) (h : u < 2 ^ 32) : (toUint32 u).toNat = u := by
  unfold toUint32
  omega

/-! ## Alignment facts for the writer trace -/

/-- The aligned offset is a multiple of the alignment. -/
theorem alignTo_mod (pos k : Nat) : alignTo pos k % k = 0 := by
  unfold alignTo
  dsimp only
  have hdm := Nat.div_add_mod (pos + (k - 1)) k
  have hx : pos + (k - 1) - (pos + (k - 1)) % k = k * ((pos + (k - 1)) / k) := by
    omega
  rw [hx]
  exact Nat.mul_mod_right k _

/-- Aligning never moves the cursor backwards. -/
theorem alignTo_ge (pos k : Nat) (hk : 0 < k) : pos ≤ alignTo pos k := by
  unfold alignTo
  dsimp only
  have hmod : (pos + (k - 1)) % k < k := Nat.mod_lt _ hk
  omega

/-- Aligning advances by less than the alignment. -/
theorem alignTo_le (pos k : Nat) : alignTo pos k ≤ pos + (k - 1) := by
  unfold alignTo
  dsimp only
  omega

/-- Every scalar store recorded in the trace is aligned to its width. -/
def TraceAligned (p : UltraMemoryPool) : Prop := ∀ e ∈ p.trace, e.1 % e.2 = 0

/-- Alignment is inherited through any trace-preserving operation. -/
theorem ta_of_trace_eq {p q : UltraMemoryPool} (h : q.trace = p.trace)
    (hp : TraceAligned p) : TraceAligned q := fun e he => hp e (h ▸ he)

/-- ensure keeps the cursor. -/
theorem ensure_pos (p : UltraMemoryPool) (b : Nat) : (p.ensure b).pos = p.pos := by
  unfold UltraMemoryPool.pos
  rw [(ensure_spec p b).1]

/-- alignPos keeps the trace. -/
theorem alignPos_trace (p : UltraMemoryPool) (k : Nat) :
    (p.alignPos k).trace = p.trace := rfl

/-- alignPos moves the cursor to the aligned offset. -/
theorem alignPos_pos (p : UltraMemoryPool) (k : Nat) (hk : 0 < k) :
    (p.alignPos k).pos = alignTo p.pos k := by
  unfold UltraMemoryPool.alignPos UltraMemoryPool.pos
  dsimp only
  rw [List.length_append, List.length_replicate]
  have := alignTo_ge p.data.length k hk
  unfold UltraMemoryPool.pos at this
  omega

/-- writeU8 keeps the trace. -/
theorem writeU8_trace (p : UltraMemoryPool) (v : ℤ) :
    (p.writeU8 v).trace = p.trace := by
  unfold UltraMemoryPool.writeU8
  dsimp only
  exact (ensure_spec p 1).2.1

/-- writeVarint keeps the trace. -/
theorem writeVarint_trace (p : UltraMemoryPool) (v : ℤ) :
    (p.writeVarint v).trace = p.trace := by
  unfold UltraMemoryPool.writeVarint
  dsimp only
  exact (ensure_spec p 5).2.1

/-- A scalar store of positive width lands on an offset aligned to the
width, so writeScalar preserves trace alignment. -/
theorem writeScalar_ta (p : UltraMemoryPool) (w : Nat) (v : ℤ) (hw : 0 < w)
    (h : TraceAligned p) : TraceAligned (p.writeScalar w v) := by
  unfold UltraMemoryPool.writeScalar
  dsimp only
  intro e he
  rw [(ensure_spec _ w).2.1, alignPos_trace] at he
  rcases List.mem_append.mp he with h1 | h2
  · exact h e h1
  · have he2 : e = (((p.alignPos w).ensure w).pos, w) := by
      simpa using h2
    rw [he2, ensure_pos, alignPos_pos p w hw]
    exact alignTo_mod p.pos w

/-- writePackedArray writes its elements back to back from an offset aligned
to the element size (at most 8), so each element store is aligned. -/
theorem writePackedArray_ta (p : UltraMemoryPool) (xs : List ℤ) (et : Nat)
    (hes1 : 0 < bytesPerElement et) (hes8 : bytesPerElement et ≤ 8)
    (h : TraceAligned p) : TraceAligned (p.writePackedArray xs et) := by
  unfold UltraMemoryPool.writePackedArray
  dsimp only
  intro e he
  rw [(ensure_spec _ _).2.1, alignPos_trace, writeVarint_trace] at he
  rcases List.mem_append.mp he with h1 | h2
  · exact h e h1
  · rw [List.mem_map] at h2
    obtain ⟨i, _, hei⟩ := h2
    have hmin : min (bytesPerElement et) 8 = bytesPerElement et := by omega
    have hbase : (((p.writeVarint xs.length).alignPos
        (min (bytesPerElement et) 8)).ensure (xs.length * bytesPerElement et)).pos
        = alignTo (p.writeVarint xs.length).pos (bytesPerElement et) := by
      rw [ensure_pos, hmin, alignPos_pos _ _ hes1]
    rw [← hei]
    dsimp only
    rw [hbase]
    rw [Nat.add_mul_mod_self_right]
    exact alignTo_mod _ _


/-- writeBulkAligned records its block as element stores from an offset
aligned to the element size (at most 8), so it preserves trace alignment. -/
theorem writeBulkAligned_ta (p : UltraMemoryPool) (bytes : List Nat) (es : Nat)
    (hes1 : 0 < es) (hes8 : es ≤ 8) (h : TraceAligned p) :
    TraceAligned (p.writeBulkAligned bytes es) := by
  unfold UltraMemoryPool.writeBulkAligned
  dsimp only
  intro e he
  rw [(ensure_spec _ _).2.1, alignPos_trace] at he
  rcases List.mem_append.mp he with h1 | h2
  · exact h e h1
  · rw [List.mem_map] at h2
    obtain ⟨i, _, hei⟩ := h2
    have hmin : min es 8 = es := by omega
    have hbase : ((p.alignPos (min es 8)).ensure bytes.length).pos
        = alignTo p.pos es := by
      rw [ensure_pos, hmin, alignPos_pos _ _ hes1]
    rw [← hei]
    dsimp only
    rw [hbase, Nat.add_mul_mod_self_right]
    exact alignTo_mod _ _

/-- A fold of single-byte writes keeps the trace. -/
theorem foldl_writeU8_trace (value : List Nat) :
    ∀ p : UltraMemoryPool,
      (value.foldl (fun p (c : Nat) => p.writeU8 c) p).trace = p.trace := by
  induction value with
  | nil => intro p; rfl
  | cons c rest ih =>
    intro p
    rw [List.foldl_cons, ih, writeU8_trace]

/-- String payloads only emit bytes, length prefixes and a 1-byte-element
bulk block, all alignment-preserving. -/
theorem writeStringPayload_ta (s : List Nat) (t : Nat) (p : UltraMemoryPool)
    (h : TraceAligned p) : TraceAligned (writeStringPayload s t p) := by
  unfold writeStringPayload
  dsimp only
  split
  · exact h
  · split
    · exact ta_of_trace_eq ((foldl_writeU8_trace s _).trans (writeU8_trace p _)) h
    · split
      · exact ta_of_trace_eq ((foldl_writeU8_trace s _).trans (writeVarint_trace p _)) h
      · split
        · exact writeBulkAligned_ta _ _ 1 (by omega) (by omega)
            (ta_of_trace_eq (writeU8_trace p _) h)
        · exact writeBulkAligned_ta _ _ 1 (by omega) (by omega)
            (ta_of_trace_eq (writeVarint_trace p _) h)

/-- The string branches of writeValue preserve trace alignment. -/
theorem writeStringValue_ta (s : List Nat) (st : WState)
    (h : TraceAligned st.pool) : TraceAligned ((writeStringValue s st).pool) := by
  unfold writeStringValue
  dsimp only
  split
  · split
    · exact ta_of_trace_eq
        ((writeVarint_trace _ _).trans (writeU8_trace st.pool _)) h
    · exact writeStringPayload_ta _ _ _ (ta_of_trace_eq (writeU8_trace st.pool _) h)
  · exact writeStringPayload_ta _ _ _ (ta_of_trace_eq (writeU8_trace st.pool _) h)

/-- Number payloads are single scalar stores of widths 1, 2, 4 or 8 (or a
varint plus a sign byte), all aligned. -/
theorem writeNumber_ta (value : ℤ) (t : Nat) (p : UltraMemoryPool)
    (h : TraceAligned p) : TraceAligned (writeNumber value t p) := by
  unfold writeNumber
  dsimp only
  split
  · exact ta_of_trace_eq (writeU8_trace p _) h
  · split
    · exact writeScalar_ta p 2 _ (by omega) h
    · split
      · exact writeScalar_ta p 4 _ (by omega) h
      · split
        · exact writeScalar_ta p 4 _ (by omega) h
        · split
          · exact writeScalar_ta p 4 _ (by omega) h
          · split
            · exact writeScalar_ta p 8 _ (by omega) h
            · split
              · exact ta_of_trace_eq
                  ((writeU8_trace _ _).trans (writeVarint_trace p _)) h
              · exact h

/-- Typed-array emission writes flags, varints and a 1-byte-element bulk
block, preserving trace alignment. -/
theorem writeTypedArray_ta (bufLabel byteOffset : Nat) (bytes : List Nat)
    (st : WState) (h : TraceAligned st.pool) :
    TraceAligned ((writeTypedArray bufLabel byteOffset bytes st).pool) := by
  unfold writeTypedArray
  dsimp only
  split
  · exact ta_of_trace_eq
      ((writeVarint_trace _ _).trans ((writeVarint_trace _ _).trans
        ((writeVarint_trace _ _).trans (writeU8_trace st.pool _)))) h
  · exact writeBulkAligned_ta _ _ 1 (by omega) (by omega)
      (ta_of_trace_eq
        ((writeVarint_trace _ _).trans ((writeVarint_trace _ _).trans
          (writeU8_trace _ _))) h)

/-- The analyzer only returns the five packed tags, whose element sizes are
between 1 and 8. -/
theorem analyzeNumericArray_size (xs : List ℤ) :
    0 < bytesPerElement (analyzeNumericArray xs) ∧
      bytesPerElement (analyzeNumericArray xs) ≤ 8 := by
  have hgen : ∀ i : Nat,
      0 < bytesPerElement ([TYPE.ARRAY_PACKED_I32, TYPE.ARRAY_PACKED_I8,
        TYPE.ARRAY_PACKED_I16, TYPE.ARRAY_PACKED_I32].getD i TYPE.ARRAY_PACKED_I32) ∧
      bytesPerElement ([TYPE.ARRAY_PACKED_I32, TYPE.ARRAY_PACKED_I8,
        TYPE.ARRAY_PACKED_I16, TYPE.ARRAY_PACKED_I32].getD i TYPE.ARRAY_PACKED_I32) ≤ 8 := by
    intro i
    match i with
    | 0 => decide
    | 1 => decide
    | 2 => decide
    | 3 => decide
    | n + 4 =>
      have hd : [TYPE.ARRAY_PACKED_I32, TYPE.ARRAY_PACKED_I8, TYPE.ARRAY_PACKED_I16,
          TYPE.ARRAY_PACKED_I32].getD (n + 4) TYPE.ARRAY_PACKED_I32 =
          TYPE.ARRAY_PACKED_I32 := by
        simp [List.getD]
      rw [hd]
      decide
  unfold analyzeNumericArray
  dsimp only
  split
  · exact hgen _
  · split
    · decide
    · decide

/-- When detectArray selects neither the empty nor the dense encoding, the
tag is one of the analyzer's packed tags. -/
theorem detectArray_packed_size (xs : List Value)
    (h1 : detectArray xs ≠ TYPE.ARRAY_EMPTY) (h2 : detectArray xs ≠ TYPE.ARRAY_DENSE) :
    0 < bytesPerElement (detectArray xs) ∧ bytesPerElement (detectArray xs) ≤ 8 := by
  by_cases hlen : xs.length = 0
  · exfalso
    apply h1
    unfold detectArray
    rw [if_pos hlen]
  · by_cases hopt : canOptimize xs = true
    · cases hnums : numsOf xs with
      | some ns =>
        have heq : detectArray xs = analyzeNumericArray ns := by
          unfold detectArray
          rw [if_neg hlen, if_pos hopt, hnums]
        rw [heq]
        exact analyzeNumericArray_size ns
      | none =>
        exfalso
        apply h2
        unfold detectArray
        rw [if_neg hlen, if_pos hopt, hnums]
    · exfalso
      apply h2
      unfold detectArray
      rw [if_neg hlen, if_neg hopt]

/-- Folding the element writer over dense array contents preserves trace
alignment whenever the element writer does. -/
theorem writeElems_ta (f : Value → WState → WState)
    (hf : ∀ v st, TraceAligned st.pool → TraceAligned ((f v st).pool)) :
    ∀ (xs : List Value) (st : WState),
      TraceAligned st.pool → TraceAligned ((writeElems f xs st).pool) := by
  intro xs
  induction xs with
  | nil => intro st h; exact h
  | cons v rest ih =>
    intro st h
    exact ih _ (hf v st h)

/-- Folding the key/value writer over the sorted keys preserves trace
alignment whenever the value writer does. -/
theorem writeKeys_ta (f : Value → WState → WState)
    (hf : ∀ v st, TraceAligned st.pool → TraceAligned ((f v st).pool))
    (fields : List (List Nat × Value)) :
    ∀ (keys : List (List Nat)) (st : WState),
      TraceAligned st.pool → TraceAligned ((writeKeys f fields keys st).pool) := by
  intro keys
  induction keys with
  | nil => intro st h; exact h
  | cons k rest ih =>
    intro st h
    exact ih _ (hf _ _ (writeStringValue_ta k st h))

/-- Every write path of the writer driver preserves trace alignment. -/
theorem writeValue_ta : ∀ (fuel : Nat) (v : Value) (st : WState),
    TraceAligned st.pool → TraceAligned ((writeValue fuel v st).pool) := by
  intro fuel
  induction fuel with
  | zero => intro v st h; exact h
  | succ fuel ih =>
    intro v st h
    cases v with
    | vnull => exact ta_of_trace_eq (writeU8_trace _ _) h
    | vundefined => exact ta_of_trace_eq (writeU8_trace _ _) h
    | vbool b => exact ta_of_trace_eq (writeU8_trace _ _) h
    | vnum n => exact writeNumber_ta _ _ _ (ta_of_trace_eq (writeU8_trace _ _) h)
    | vstr s => exact writeStringValue_ta s st h
    | varr xs =>
      show TraceAligned _
      unfold writeValue
      dsimp only
      split
      · exact ta_of_trace_eq (writeU8_trace _ _) h
      · split
        · exact writeElems_ta _ ih xs _
            (ta_of_trace_eq ((writeVarint_trace _ _).trans (writeU8_trace _ _)) h)
        · next hne1 hne2 =>
          obtain ⟨hp1, hp2⟩ := detectArray_packed_size xs hne1 hne2
          exact writePackedArray_ta _ _ _ hp1 hp2
            (ta_of_trace_eq (writeU8_trace _ _) h)
    | vobj fields =>
      show TraceAligned _
      unfold writeValue
      dsimp only
      split
      · exact ta_of_trace_eq (writeU8_trace _ _) h
      · exact writeKeys_ta _ ih fields _ _
          (ta_of_trace_eq ((writeVarint_trace _ _).trans (writeU8_trace _ _)) h)
    | vu8view bufLabel byteOffset bytes =>
      exact writeTypedArray_ta _ _ _ _ (ta_of_trace_eq (writeU8_trace _ _) h)

/-! ## Reader step facts -/

/-- The varint loop consumes at least one byte and no more than remain. -/
theorem readVarintAux_consumed : ∀ (l : List Nat) (v : ℤ) (sh : Nat) (r : ℤ × Nat),
    readVarintAux l v sh = some r → 1 ≤ r.2 ∧ r.2 ≤ l.length := by
  intro l
  induction l with
  | nil =>
    intro v sh r h
    exact absurd h (by simp [readVarintAux])
  | cons b rest ih =>
    intro v sh r h
    unfold readVarintAux at h
    dsimp only at h
    split at h
    · obtain ⟨r0, hr0, hfr⟩ := Option.map_eq_some'.mp h
      have := ih _ _ _ hr0
      rw [← hfr]
      simp only [List.length_cons]
      omega
    · simp only [Option.some.injEq] at h
      rw [← h]
      simp only [List.length_cons]
      omega

/-- A successful readVarint advances the cursor by at least one byte, stays
within the buffer, and changes nothing but the cursor. -/
theorem readVarint_spec (st : RState) (n : Nat) (st2 : RState)
    (h : readVarint st = .ok (n, st2)) :
    st.pos < st2.pos ∧ st2.pos ≤ st.buf.length ∧ st2.buf = st.buf ∧
    st2.deserializeRefs = st.deserializeRefs ∧
    st2.deserializeStrings = st.deserializeStrings ∧
    st2.deserializeBuffers = st.deserializeBuffers := by
  unfold readVarint at h
  split at h
  · exact absurd h (by simp)
  · next value consumed heq =>
    have hc := readVarintAux_consumed _ _ _ _ heq
    simp only [List.length_drop] at hc
    simp only [Except.ok.injEq, Prod.mk.injEq] at h
    obtain ⟨-, hst⟩ := h
    rw [← hst]
    dsimp only
    refine ⟨by omega, by omega, rfl, rfl, rfl, rfl⟩

/-! ## Progress framework for the reader

To show the reader total we prove that its explicit fuel never runs out:
every successful read strictly advances the cursor over a fixed buffer, every
loop is bounded by a decoded count whose iterations each consume input, and
every primitive is bounds-checked — so recursion depth is bounded by the
remaining input and fuel of one more than the input length suffices. -/

/-- Reduction of a bind on a success. -/
theorem bindOk {ε α β : Type} (a : α) (f : α → Except ε β) :
    (Except.ok a >>= f) = f a := rfl

/-- Reduction of a bind on an error. -/
theorem bindErr {ε α β : Type} (e : ε) (f : α → Except ε β) :
    ((Except.error e : Except ε α) >>= f) = Except.error e := rfl

/-- Reduction of a bind on a pure value. -/
theorem bindPureOk {ε α β : Type} (a : α) (f : α → Except ε β) :
    ((pure a : Except ε α) >>= f) = f a := rfl

/-- Pointwise progress: against a start state, a read result is not
fuel-exhaustion and any success leaves the buffer unchanged with the cursor
not moved backwards. -/
def MonoAt {α : Type} (r : Except RErr (α × RState)) (st : RState) : Prop :=
  r ≠ .error .fuelOut ∧
  ∀ a st2, r = .ok (a, st2) → st.pos ≤ st2.pos ∧ st2.buf = st.buf

/-- Strict pointwise progress: a success must consume input. -/
def StrictAt {α : Type} (r : Except RErr (α × RState)) (st : RState) : Prop :=
  r ≠ .error .fuelOut ∧
  ∀ a st2, r = .ok (a, st2) → st.pos < st2.pos ∧ st2.buf = st.buf

/-- Strictness is stronger than monotonicity. -/
theorem StrictAt.monoAt {α : Type} {r : Except RErr (α × RState)} {st : RState}
    (h : StrictAt r st) : MonoAt r st :=
  ⟨h.1, fun a st2 hr => ⟨le_of_lt (h.2 a st2 hr).1, (h.2 a st2 hr).2⟩⟩

/-- A success that returns the current state monotonically progresses. -/
theorem monoAt_ok {α : Type} (a : α) (st : RState) : MonoAt (.ok (a, st)) st :=
  ⟨by simp, fun b st2 h => by
    simp only [Except.ok.injEq, Prod.mk.injEq] at h
    rw [← h.2]
    exact ⟨le_refl _, rfl⟩⟩

/-- Any error other than fuel-exhaustion monotonically progresses. -/
theorem monoAt_error {α : Type} {e : RErr} (he : e ≠ .fuelOut) (st : RState) :
    MonoAt (.error e : Except RErr (α × RState)) st :=
  ⟨by simpa using he, fun a st2 h => by cases h⟩

/-- Sequencing preserves monotone progress.  The continuation is a function
of the result pair so that the lemma unifies with a desugared do-block. -/
theorem monoAt_bind {α β : Type} {r : Except RErr (α × RState)} {st : RState}
    (hr : MonoAt r st) {g : α × RState → Except RErr (β × RState)}
    (hg : ∀ a st1, r = .ok (a, st1) → MonoAt (g (a, st1)) st1) :
    MonoAt (r >>= g) st := by
  cases r with
  | error e =>
    rw [bindErr]
    refine ⟨?_, fun a st2 h => by cases h⟩
    simpa using hr.1
  | ok p =>
    obtain ⟨a0, st1⟩ := p
    rw [bindOk]
    have h1 := hr.2 a0 st1 rfl
    have h2 := hg a0 st1 rfl
    refine ⟨h2.1, fun b st2 h => ?_⟩
    have h3 := h2.2 b st2 h
    exact ⟨le_trans h1.1 h3.1, h3.2.trans h1.2⟩

/-- Sequencing after a strict first step gives strict progress. -/
theorem strictAt_bind {α β : Type} {r : Except RErr (α × RState)} {st : RState}
    (hr : StrictAt r st) {g : α × RState → Except RErr (β × RState)}
    (hg : ∀ a st1, r = .ok (a, st1) → MonoAt (g (a, st1)) st1) :
    StrictAt (r >>= g) st := by
  cases r with
  | error e =>
    rw [bindErr]
    refine ⟨?_, fun a st2 h => by cases h⟩
    simpa using hr.1
  | ok p =>
    obtain ⟨a0, st1⟩ := p
    rw [bindOk]
    have h1 := hr.2 a0 st1 rfl
    have h2 := hg a0 st1 rfl
    refine ⟨h2.1, fun b st2 h => ?_⟩
    have h3 := h2.2 b st2 h
    exact ⟨lt_of_lt_of_le h1.1 h3.1, h3.2.trans h1.2⟩

/-- Sequencing a state-free computation that cannot exhaust fuel. -/
theorem monoAt_bindPure {α β : Type} {r : Except RErr α} {st : RState}
    (hne : r ≠ .error .fuelOut) {g : α → Except RErr (β × RState)}
    (hg : ∀ a, r = .ok a → MonoAt (g a) st) :
    MonoAt (r >>= g) st := by
  cases r with
  | error e =>
    rw [bindErr]
    refine ⟨?_, fun a st2 h => by cases h⟩
    simpa using hne
  | ok a0 =>
    rw [bindOk]
    exact hg a0 rfl

/-- readU8 strictly consumes its byte. -/
theorem readU8_strictAt (st : RState) : StrictAt (readU8 st) st := by
  unfold readU8
  split
  · exact ⟨by simp, fun a st2 h => by cases h⟩
  · refine ⟨by simp, fun a st2 h => ?_⟩
    simp only [Except.ok.injEq, Prod.mk.injEq] at h
    rw [← h.2]
    exact ⟨by dsimp only; omega, rfl⟩

/-- readVarint strictly consumes at least one byte. -/
theorem readVarint_strictAt (st : RState) : StrictAt (readVarint st) st := by
  constructor
  · unfold readVarint
    split
    · simp
    · simp
  · intro a st2 h
    have := readVarint_spec st a st2 h
    exact ⟨this.1, this.2.2.1⟩

/-- Aligned scalar reads of positive width strictly consume input. -/
theorem readScalar_strictAt (w : Nat) (hw : 0 < w) (st : RState) :
    StrictAt (readScalar w st) st := by
  unfold readScalar readAlign
  dsimp only
  split
  · exact ⟨by simp, fun a st2 h => by cases h⟩
  · refine ⟨by simp, fun a st2 h => ?_⟩
    simp only [Except.ok.injEq, Prod.mk.injEq] at h
    rw [← h.2]
    dsimp only
    have := alignTo_ge st.pos w hw
    exact ⟨by omega, rfl⟩

/-- A success at an explicitly advanced state progresses. -/
theorem monoAt_ok_pos {α : Type} (a : α) (st st2 : RState)
    (hpos : st.pos ≤ st2.pos) (hbuf : st2.buf = st.buf) :
    MonoAt (.ok (a, st2)) st :=
  ⟨by simp, fun b st3 h => by
    simp only [Except.ok.injEq, Prod.mk.injEq] at h
    rw [← h.2]
    exact ⟨hpos, hbuf⟩⟩

/-- readPrimitive consumes nothing and never exhausts fuel. -/
theorem readPrimitive_monoAt (t : Nat) (st : RState) :
    MonoAt (readPrimitive t st) st := by
  unfold readPrimitive
  split
  · exact monoAt_ok _ _
  split
  · exact monoAt_ok _ _
  split
  · exact monoAt_ok _ _
  split
  · exact monoAt_ok _ _
  exact monoAt_error (by simp) st

/-- readNumber only moves the cursor forwards and never exhausts fuel. -/
theorem readNumber_monoAt (t : Nat) (st : RState) : MonoAt (readNumber t st) st := by
  unfold readNumber
  by_cases h1 : t = TYPE.INT8
  · rw [if_pos h1]
    split
    · exact monoAt_error (by simp) st
    · exact monoAt_ok_pos _ _ _ (Nat.le_succ _) rfl
  rw [if_neg h1]
  by_cases h2 : t = TYPE.INT16
  · rw [if_pos h2]
    refine monoAt_bind (readScalar_strictAt 2 (by omega) st).monoAt ?_
    intro a st1 _
    dsimp only
    exact monoAt_ok _ _
  rw [if_neg h2]
  by_cases h3 : t = TYPE.INT32
  · rw [if_pos h3]
    refine monoAt_bind (readScalar_strictAt 4 (by omega) st).monoAt ?_
    intro a st1 _
    dsimp only
    exact monoAt_ok _ _
  rw [if_neg h3]
  by_cases h4 : t = TYPE.UINT32
  · rw [if_pos h4]
    refine monoAt_bind (readScalar_strictAt 4 (by omega) st).monoAt ?_
    intro a st1 _
    dsimp only
    exact monoAt_ok _ _
  rw [if_neg h4]
  by_cases h5 : t = TYPE.FLOAT32
  · rw [if_pos h5]
    refine monoAt_bind (readScalar_strictAt 4 (by omega) st).monoAt ?_
    intro a st1 _
    dsimp only
    exact monoAt_ok _ _
  rw [if_neg h5]
  by_cases h6 : t = TYPE.FLOAT64
  · rw [if_pos h6]
    refine monoAt_bind (readScalar_strictAt 8 (by omega) st).monoAt ?_
    intro a st1 _
    dsimp only
    exact monoAt_ok _ _
  rw [if_neg h6]
  by_cases h7 : t = TYPE.NAN
  · rw [if_pos h7]
    exact monoAt_ok _ _
  rw [if_neg h7]
  by_cases h8 : t = TYPE.INFINITY
  · rw [if_pos h8]
    exact monoAt_ok _ _
  rw [if_neg h8]
  by_cases h9 : t = TYPE.NEG_INFINITY
  · rw [if_pos h9]
    exact monoAt_ok _ _
  rw [if_neg h9]
  by_cases h10 : t = TYPE.NEG_ZERO
  · rw [if_pos h10]
    exact monoAt_ok _ _
  rw [if_neg h10]
  by_cases h11 : t = TYPE.VARINT
  · rw [if_pos h11]
    refine monoAt_bind (readVarint_strictAt st).monoAt ?_
    intro a st1 _
    dsimp only
    refine monoAt_bind (readU8_strictAt st1).monoAt ?_
    intro b st2 _
    dsimp only
    exact monoAt_ok _ _
  rw [if_neg h11]
  exact monoAt_error (by simp) st

/-- readBigInt only moves the cursor forwards and never exhausts fuel. -/
theorem readBigInt_monoAt (t : Nat) (st : RState) : MonoAt (readBigInt t st) st := by
  unfold readBigInt
  split
  · refine monoAt_bind (readScalar_strictAt 8 (by omega) st).monoAt ?_
    intro m st1 _
    dsimp only
    exact monoAt_ok _ _
  split
  · refine monoAt_bind (readVarint_strictAt st).monoAt ?_
    intro byteLength st1 _
    dsimp only
    split
    · exact monoAt_error (by simp) st1
    · exact monoAt_ok_pos _ _ _ (Nat.le_add_right _ _) rfl
  exact monoAt_error (by simp) st

/-- readString only moves the cursor forwards and never exhausts fuel. -/
theorem readString_monoAt (t : Nat) (st : RState) : MonoAt (readString t st) st := by
  unfold readString
  split
  · exact monoAt_ok _ _
  · dsimp only
    split
    · refine monoAt_bind (readU8_strictAt st).monoAt ?_
      intro length st1 _
      dsimp only
      split
      · exact monoAt_error (by simp) st1
      · exact monoAt_ok_pos _ _ _ (Nat.le_add_right _ _) rfl
    · refine monoAt_bind (readVarint_strictAt st).monoAt ?_
      intro length st1 _
      dsimp only
      split
      · exact monoAt_error (by simp) st1
      · exact monoAt_ok_pos _ _ _ (Nat.le_add_right _ _) rfl

/-- readPackedArrayData for a tag of positive element size only moves the
cursor forwards and never exhausts fuel. -/
theorem readPackedArrayData_monoAt (t : Nat) (hes : 0 < bytesPerElement t)
    (st : RState) : MonoAt (readPackedArrayData t st) st := by
  unfold readPackedArrayData
  refine monoAt_bind (readVarint_strictAt st).monoAt ?_
  intro length st1 _
  dsimp only
  split
  · exact monoAt_error (by simp) st1
  · have hal : st1.pos ≤ (readAlign st1 (min (bytesPerElement t) 8)).pos := by
      unfold readAlign
      dsimp only
      exact alignTo_ge _ _ (by omega)
    exact monoAt_ok_pos _ _ _ (le_trans hal (Nat.le_add_right _ _)) rfl

/-- The big-integer element loop only moves the cursor forwards. -/
theorem readBigInt64Values_monoAt : ∀ (n : Nat) (st : RState),
    MonoAt (readBigInt64Values n st) st := by
  intro n
  induction n with
  | zero => intro st; exact monoAt_ok _ _
  | succ n ih =>
    intro st
    unfold readBigInt64Values
    refine monoAt_bind (readScalar_strictAt 8 (by omega) st).monoAt ?_
    intro a st1 _
    dsimp only
    refine monoAt_bind (ih st1) ?_
    intro vs st2 _
    dsimp only
    exact monoAt_ok _ _

/-- createTypedArray is a pure check: it cannot exhaust fuel. -/
theorem createTypedArray_ne_fuelOut (t bufferIdx byteOffset length : Nat)
    (st : RState) :
    createTypedArray t bufferIdx byteOffset length st ≠ .error .fuelOut := by
  unfold createTypedArray
  dsimp only
  split_ifs <;> simp

/-- readTypedArray only moves the cursor forwards and never exhausts fuel. -/
theorem readTypedArray_monoAt (t : Nat) (st : RState) :
    MonoAt (readTypedArray t st) st := by
  unfold readTypedArray
  refine monoAt_bind (readU8_strictAt st).monoAt ?_
  intro isShared st1 _
  dsimp only
  split
  · refine monoAt_bind (readVarint_strictAt st1).monoAt ?_
    intro bufferId st2 _
    dsimp only
    refine monoAt_bind (readVarint_strictAt st2).monoAt ?_
    intro byteOffset st3 _
    dsimp only
    refine monoAt_bind (readVarint_strictAt st3).monoAt ?_
    intro length st4 _
    dsimp only
    split
    · exact monoAt_error (by simp) st4
    · refine monoAt_bindPure (createTypedArray_ne_fuelOut t bufferId byteOffset length st4) ?_
      intro v _
      exact monoAt_ok _ _
  · refine monoAt_bind (readVarint_strictAt st1).monoAt ?_
    intro byteOffset st2 _
    dsimp only
    refine monoAt_bind (readVarint_strictAt st2).monoAt ?_
    intro length st3 _
    dsimp only
    split
    · refine monoAt_bind ?_ ?_
      · have h8 := readBigInt64Values_monoAt length (readAlign st3 8)
        have hal : st3.pos ≤ (readAlign st3 8).pos := by
          unfold readAlign
          dsimp only
          exact alignTo_ge _ _ (by omega)
        exact ⟨h8.1, fun a st4 h =>
          ⟨le_trans hal (h8.2 a st4 h).1, (h8.2 a st4 h).2⟩⟩
      · intro vals st4 _
        dsimp only
        exact monoAt_ok _ _
    · split
      · exact monoAt_error (by simp) st3
      · refine monoAt_bindPure (createTypedArray_ne_fuelOut _ _ _ _ _) ?_
        intro v _
        have hal : st3.pos ≤ (readAlign st3 (max (bytesPerElement t) 1)).pos := by
          unfold readAlign
          dsimp only
          exact alignTo_ge _ _ (by omega)
        exact monoAt_ok_pos _ _ _ (le_trans hal (Nat.le_add_right _ _)) rfl

/-- readArrayBuffer only moves the cursor forwards and never exhausts fuel. -/
theorem readArrayBuffer_monoAt (st : RState) : MonoAt (readArrayBuffer st) st := by
  unfold readArrayBuffer
  refine monoAt_bind (readVarint_strictAt st).monoAt ?_
  intro length st1 _
  dsimp only
  split
  · exact monoAt_error (by simp) st1
  · exact monoAt_ok_pos _ _ _ (Nat.le_add_right _ _) rfl

/-- readDate only moves the cursor forwards and never exhausts fuel. -/
theorem readDate_monoAt (t : Nat) (st : RState) : MonoAt (readDate t st) st := by
  unfold readDate
  split
  · refine monoAt_bind (readScalar_strictAt 8 (by omega) st).monoAt ?_
    intro a st1 _
    dsimp only
    exact monoAt_ok _ _
  split
  · exact monoAt_ok _ _
  exact monoAt_error (by simp) st

/-- readBinary only moves the cursor forwards and never exhausts fuel. -/
theorem readBinary_monoAt (st : RState) : MonoAt (readBinary st) st := by
  unfold readBinary
  refine monoAt_bind (readVarint_strictAt st).monoAt ?_
  intro size st1 _
  dsimp only
  refine monoAt_bind (readVarint_strictAt st1).monoAt ?_
  intro typeStr st2 _
  dsimp only
  exact monoAt_ok _ _

/-- readExtension consumes nothing and never exhausts fuel. -/
theorem readExtension_monoAt (t : Nat) (st : RState) :
    MonoAt (readExtension t st) st := by
  unfold readExtension
  split
  · exact monoAt_ok _ _
  exact monoAt_error (by simp) st

/-- Binding that threads the remaining-input bound: if the start state has
fewer than fuel unread bytes, so does the state any successful first step
leaves behind. -/
theorem monoAt_bindB {α β : Type} {fuel : Nat} {r : Except RErr (α × RState)}
    {st : RState} (hB : st.buf.length - st.pos < fuel) (hr : MonoAt r st)
    {g : α × RState → Except RErr (β × RState)}
    (hg : ∀ a st1, r = .ok (a, st1) → st1.buf.length - st1.pos < fuel →
      MonoAt (g (a, st1)) st1) :
    MonoAt (r >>= g) st := by
  refine monoAt_bind hr ?_
  intro a st1 hok
  obtain ⟨hp, hb⟩ := hr.2 a st1 hok
  refine hg a st1 hok ?_
  rw [hb]
  omega

/-- The shell-registration step preserves monotone progress. -/
theorem registerShell_monoAt {id : Nat} {r : Except RErr (DValue × RState)}
    {st : RState} (h : MonoAt r st) : MonoAt (registerShell id r) st := by
  unfold registerShell
  cases r with
  | error e => exact h
  | ok p =>
    obtain ⟨v, st2⟩ := p
    dsimp only
    obtain ⟨hp, hb⟩ := h.2 v st2 rfl
    exact monoAt_ok_pos _ _ _ hp hb

/-- The heap-registration step preserves monotone progress. -/
theorem registerHeap_monoAt {r : Except RErr (DValue × RState)}
    {st : RState} (h : MonoAt r st) : MonoAt (registerHeap r) st := by
  unfold registerHeap
  cases r with
  | error e => exact h
  | ok p =>
    obtain ⟨v, st1⟩ := p
    dsimp only
    obtain ⟨hp, hb⟩ := h.2 v st1 rfl
    split
    · exact monoAt_ok_pos _ _ _ hp hb
    · exact monoAt_ok_pos _ _ _ hp hb

/-- The dense-array and set element loop is monotone whenever the recursive
reader is strict on every state with fewer than fuel unread bytes. -/
theorem readMany_monoAt {rv : RState → Except RErr (DValue × RState)} {fuel : Nat}
    (hrv : ∀ st : RState, st.buf.length - st.pos < fuel → StrictAt (rv st) st) :
    ∀ (n : Nat) (st : RState), st.buf.length - st.pos < fuel →
      MonoAt (readMany rv n st) st := by
  intro n
  induction n with
  | zero => intro st _; exact monoAt_ok _ _
  | succ n ih =>
    intro st hB
    unfold readMany
    refine monoAt_bindB hB (hrv st hB).monoAt ?_
    intro v st1 _ hB1
    dsimp only
    refine monoAt_bindB hB1 (ih st1 hB1) ?_
    intro vs st2 _ _
    dsimp only
    exact monoAt_ok _ _

/-- The key/value pair loop is monotone under the same hypothesis. -/
theorem readPairs_monoAt {rv : RState → Except RErr (DValue × RState)} {fuel : Nat}
    (hrv : ∀ st : RState, st.buf.length - st.pos < fuel → StrictAt (rv st) st) :
    ∀ (n : Nat) (st : RState), st.buf.length - st.pos < fuel →
      MonoAt (readPairs rv n st) st := by
  intro n
  induction n with
  | zero => intro st _; exact monoAt_ok _ _
  | succ n ih =>
    intro st hB
    unfold readPairs
    refine monoAt_bindB hB (hrv st hB).monoAt ?_
    intro k st1 _ hB1
    dsimp only
    refine monoAt_bindB hB1 (hrv st1 hB1).monoAt ?_
    intro v st2 _ hB2
    dsimp only
    refine monoAt_bindB hB2 (ih st2 hB2) ?_
    intro ps st3 _ _
    dsimp only
    exact monoAt_ok _ _

/-- The sparse-array entry loop is monotone under the same hypothesis. -/
theorem readSparseEntries_monoAt {rv : RState → Except RErr (DValue × RState)}
    {fuel : Nat}
    (hrv : ∀ st : RState, st.buf.length - st.pos < fuel → StrictAt (rv st) st) :
    ∀ (n : Nat) (st : RState), st.buf.length - st.pos < fuel →
      MonoAt (readSparseEntries rv n st) st := by
  intro n
  induction n with
  | zero => intro st _; exact monoAt_ok _ _
  | succ n ih =>
    intro st hB
    unfold readSparseEntries
    refine monoAt_bindB hB (readVarint_strictAt st).monoAt ?_
    intro index st1 _ hB1
    dsimp only
    refine monoAt_bindB hB1 (hrv st1 hB1).monoAt ?_
    intro v st2 _ hB2
    dsimp only
    refine monoAt_bindB hB2 (ih st2 hB2) ?_
    intro es st3 _ _
    dsimp only
    exact monoAt_ok _ _

/-- The descriptor entry loop is monotone under the same hypothesis. -/
theorem readDescEntries_monoAt {rv : RState → Except RErr (DValue × RState)}
    {fuel : Nat}
    (hrv : ∀ st : RState, st.buf.length - st.pos < fuel → StrictAt (rv st) st) :
    ∀ (n : Nat) (st : RState), st.buf.length - st.pos < fuel →
      MonoAt (readDescEntries rv n st) st := by
  intro n
  induction n with
  | zero => intro st _; exact monoAt_ok _ _
  | succ n ih =>
    intro st hB
    unfold readDescEntries
    refine monoAt_bindB hB (hrv st hB).monoAt ?_
    intro key st1 _ hB1
    dsimp only
    refine monoAt_bindB hB1 (readU8_strictAt st1).monoAt ?_
    intro flags st2 _ hB2
    dsimp only
    split
    · split
      · refine monoAt_bindB hB2 (hrv st2 hB2).monoAt ?_
        intro g st3 _ hB3
        dsimp only
        rw [bindPureOk]
        dsimp only
        split
        · refine monoAt_bindB hB3 (hrv st3 hB3).monoAt ?_
          intro s st4 _ hB4
          dsimp only
          rw [bindPureOk]
          dsimp only
          refine monoAt_bindB hB4 (ih st4 hB4) ?_
          intro es st5 _ _
          dsimp only
          exact monoAt_ok _ _
        · rw [bindPureOk]
          dsimp only
          refine monoAt_bindB hB3 (ih st3 hB3) ?_
          intro es st4 _ _
          dsimp only
          exact monoAt_ok _ _
      · rw [bindPureOk]
        dsimp only
        split
        · refine monoAt_bindB hB2 (hrv st2 hB2).monoAt ?_
          intro s st3 _ hB3
          dsimp only
          rw [bindPureOk]
          dsimp only
          refine monoAt_bindB hB3 (ih st3 hB3) ?_
          intro es st4 _ _
          dsimp only
          exact monoAt_ok _ _
        · rw [bindPureOk]
          dsimp only
          refine monoAt_bindB hB2 (ih st2 hB2) ?_
          intro es st3 _ _
          dsimp only
          exact monoAt_ok _ _
    · refine monoAt_bindB hB2 (hrv st2 hB2).monoAt ?_
      intro v st3 _ hB3
      dsimp only
      refine monoAt_bindB hB3 (ih st3 hB3) ?_
      intro es st4 _ _
      dsimp only
      exact monoAt_ok _ _

/-- The method entry loop is monotone under the same hypothesis. -/
theorem readMethodEntries_monoAt {rv : RState → Except RErr (DValue × RState)}
    {fuel : Nat}
    (hrv : ∀ st : RState, st.buf.length - st.pos < fuel → StrictAt (rv st) st) :
    ∀ (n : Nat) (st : RState), st.buf.length - st.pos < fuel →
      MonoAt (readMethodEntries rv n st) st := by
  intro n
  induction n with
  | zero => intro st _; exact monoAt_ok _ _
  | succ n ih =>
    intro st hB
    unfold readMethodEntries
    refine monoAt_bindB hB (hrv st hB).monoAt ?_
    intro key st1 _ hB1
    dsimp only
    refine monoAt_bindB hB1 (readU8_strictAt st1).monoAt ?_
    intro isFunction st2 _ hB2
    dsimp only
    split
    · refine monoAt_bindB hB2 (readU8_strictAt st2).monoAt ?_
      intro m st3 _ hB3
      dsimp only
      refine monoAt_bindB hB3 (ih st3 hB3) ?_
      intro es st4 _ _
      dsimp only
      exact monoAt_ok _ _
    · refine monoAt_bindB hB2 (hrv st2 hB2).monoAt ?_
      intro v st3 _ hB3
      dsimp only
      refine monoAt_bindB hB3 (ih st3 hB3) ?_
      intro es st4 _ _
      dsimp only
      exact monoAt_ok _ _

/-- fillArray is monotone whenever the recursive reader is strict below the
fuel bound and the start state is below it. -/
theorem fillArray_monoAt {rv : RState → Except RErr (DValue × RState)} {fuel : Nat}
    (hrv : ∀ st : RState, st.buf.length - st.pos < fuel → StrictAt (rv st) st)
    (t : Nat) (st : RState) (hB : st.buf.length - st.pos < fuel) :
    MonoAt (fillArray rv t st) st := by
  unfold fillArray
  split
  · exact monoAt_ok _ _
  split
  · refine monoAt_bindB hB (readVarint_strictAt st).monoAt ?_
    intro length st1 _ hB1
    dsimp only
    refine monoAt_bindB hB1 (readMany_monoAt hrv length st1 hB1) ?_
    intro vs st2 _ _
    dsimp only
    exact monoAt_ok _ _
  split
  · refine monoAt_bindB hB (readVarint_strictAt st).monoAt ?_
    intro totalLength st1 _ hB1
    dsimp only
    refine monoAt_bindB hB1 (readVarint_strictAt st1).monoAt ?_
    intro elementCount st2 _ hB2
    dsimp only
    refine monoAt_bindB hB2 (readSparseEntries_monoAt hrv elementCount st2 hB2) ?_
    intro es st3 _ _
    dsimp only
    exact monoAt_ok _ _
  split
  · rename_i hpacked
    have hes : 0 < bytesPerElement t := by
      rcases hpacked with h|h|h|h|h <;> subst h <;> decide
    refine monoAt_bindB hB (readPackedArrayData_monoAt t hes st) ?_
    intro vs st1 _ _
    dsimp only
    exact monoAt_ok _ _
  exact monoAt_ok _ _

/-- fillObject is monotone under the same hypotheses. -/
theorem fillObject_monoAt {rv : RState → Except RErr (DValue × RState)} {fuel : Nat}
    (hrv : ∀ st : RState, st.buf.length - st.pos < fuel → StrictAt (rv st) st)
    (t : Nat) (st : RState) (hB : st.buf.length - st.pos < fuel) :
    MonoAt (fillObject rv t st) st := by
  unfold fillObject
  split
  · exact monoAt_ok _ _
  split
  · refine monoAt_bindB hB (readVarint_strictAt st).monoAt ?_
    intro keyCount st1 _ hB1
    dsimp only
    refine monoAt_bindB hB1 (readPairs_monoAt hrv keyCount st1 hB1) ?_
    intro ps st2 _ _
    dsimp only
    exact monoAt_ok _ _
  split
  · refine monoAt_bindB hB (readVarint_strictAt st).monoAt ?_
    intro keyCount st1 _ hB1
    dsimp only
    refine monoAt_bindB hB1 (readDescEntries_monoAt hrv keyCount st1 hB1) ?_
    intro es st2 _ _
    dsimp only
    exact monoAt_ok _ _
  split
  · refine monoAt_bindB hB (readVarint_strictAt st).monoAt ?_
    intro entryCount st1 _ hB1
    dsimp only
    refine monoAt_bindB hB1 (readMethodEntries_monoAt hrv entryCount st1 hB1) ?_
    intro es st2 _ _
    dsimp only
    exact monoAt_ok _ _
  split
  · refine monoAt_bindB hB (hrv st hB).monoAt ?_
    intro name st1 _ hB1
    dsimp only
    refine monoAt_bindB hB1 (readVarint_strictAt st1).monoAt ?_
    intro keyCount st2 _ hB2
    dsimp only
    refine monoAt_bindB hB2 (readPairs_monoAt hrv keyCount st2 hB2) ?_
    intro ps st3 _ _
    dsimp only
    exact monoAt_ok _ _
  exact monoAt_ok _ _

/-- fillCollection is monotone under the same hypotheses. -/
theorem fillCollection_monoAt {rv : RState → Except RErr (DValue × RState)}
    {fuel : Nat}
    (hrv : ∀ st : RState, st.buf.length - st.pos < fuel → StrictAt (rv st) st)
    (t : Nat) (st : RState) (hB : st.buf.length - st.pos < fuel) :
    MonoAt (fillCollection rv t st) st := by
  unfold fillCollection
  refine monoAt_bindB hB (readVarint_strictAt st).monoAt ?_
  intro size st1 _ hB1
  dsimp only
  split
  · refine monoAt_bindB hB1 (readPairs_monoAt hrv size st1 hB1) ?_
    intro ps st2 _ _
    dsimp only
    exact monoAt_ok _ _
  split
  · refine monoAt_bindB hB1 (readMany_monoAt hrv size st1 hB1) ?_
    intro vs st2 _ _
    dsimp only
    exact monoAt_ok _ _
  exact monoAt_ok _ _

/-- A computation that is monotone from the successor state is strict from
the state one byte earlier. -/
theorem strictAt_of_monoAt_succ {α : Type} {r : Except RErr (α × RState)}
    {st : RState} (st0 : RState) (h : MonoAt r st0) (hlt : st.pos < st0.pos)
    (hbuf : st0.buf = st.buf) : StrictAt r st :=
  ⟨h.1, fun a st2 hr =>
    ⟨lt_of_lt_of_le hlt (h.2 a st2 hr).1, ((h.2 a st2 hr).2).trans hbuf⟩⟩

/-- Fuel exceeding the unread byte count makes readValue total: it is then
strict, and in particular cannot return the fuel-exhaustion error.  Every
recursive call happens after the one-byte tag (and possibly more) has been
consumed over an unchanged buffer, so the remaining input drops with the
fuel. -/
theorem readValue_bound : ∀ (fuel : Nat) (st : RState),
    st.buf.length - st.pos < fuel → StrictAt (readValue fuel st) st := by
  intro fuel
  induction fuel with
  | zero => intro st hB; omega
  | succ fuel ih =>
    intro st hB
    unfold readValue
    by_cases h0 : st.pos ≥ st.buf.length
    · rw [if_pos h0]
      exact ⟨by simp, fun a st2 h => by cases h⟩
    rw [if_neg h0]
    dsimp only
    have hB0 : st.buf.length - (st.pos + 1) < fuel := by omega
    by_cases c1 : st.buf.getD st.pos 0 = TYPE.REFERENCE ∨
        st.buf.getD st.pos 0 = TYPE.CIRCULAR_REF
    · rw [if_pos c1]
      refine strictAt_of_monoAt_succ _
        (monoAt_bind (readVarint_strictAt _).monoAt ?_) (Nat.lt_succ_self _) rfl
      intro refId st1 _
      dsimp only
      split
      · exact monoAt_error (by simp) st1
      · exact monoAt_ok _ _
    rw [if_neg c1]
    by_cases c2 : st.buf.getD st.pos 0 = TYPE.STRING_REF
    · rw [if_pos c2]
      refine strictAt_of_monoAt_succ _
        (monoAt_bind (readVarint_strictAt _).monoAt ?_) (Nat.lt_succ_self _) rfl
      intro stringId st1 _
      dsimp only
      split
      · exact monoAt_error (by simp) st1
      · exact monoAt_ok _ _
    rw [if_neg c2]
    by_cases c3 : st.buf.getD st.pos 0 = TYPE.BUFFER_REF
    · rw [if_pos c3]
      refine strictAt_of_monoAt_succ _
        (monoAt_bind (readVarint_strictAt _).monoAt ?_) (Nat.lt_succ_self _) rfl
      intro bufferId st1 _
      dsimp only
      split
      · exact monoAt_error (by simp) st1
      · exact monoAt_ok _ _
    rw [if_neg c3]
    by_cases g1 : st.buf.getD st.pos 0 &&& 0xF0 = TYPE_GROUP.ARRAY
    · rw [if_pos g1]
      exact strictAt_of_monoAt_succ _
        (registerShell_monoAt (fillArray_monoAt ih _ _ hB0))
        (Nat.lt_succ_self _) rfl
    rw [if_neg g1]
    by_cases g2 : st.buf.getD st.pos 0 &&& 0xF0 = TYPE_GROUP.OBJECT
    · rw [if_pos g2]
      exact strictAt_of_monoAt_succ _
        (registerShell_monoAt (fillObject_monoAt ih _ _ hB0))
        (Nat.lt_succ_self _) rfl
    rw [if_neg g2]
    by_cases g3 : st.buf.getD st.pos 0 &&& 0xF0 = TYPE_GROUP.COLLECTION
    · rw [if_pos g3]
      by_cases c4 : st.buf.getD st.pos 0 = TYPE.MAP ∨ st.buf.getD st.pos 0 = TYPE.SET
      · rw [if_pos c4]
        exact strictAt_of_monoAt_succ _
          (registerShell_monoAt (fillCollection_monoAt ih _ _ hB0))
          (Nat.lt_succ_self _) rfl
      · rw [if_neg c4]
        exact strictAt_of_monoAt_succ _
          (fillCollection_monoAt ih _ _ hB0) (Nat.lt_succ_self _) rfl
    rw [if_neg g3]
    refine strictAt_of_monoAt_succ
      ⟨st.buf, st.pos + 1, st.deserializeRefs, st.deserializeStrings,
        st.deserializeBuffers⟩
      (registerHeap_monoAt ?_) (Nat.lt_succ_self _) rfl
    by_cases p1 : st.buf.getD st.pos 0 &&& 0xF0 = TYPE_GROUP.PRIMITIVE
    · rw [if_pos p1]
      exact readPrimitive_monoAt _ _
    rw [if_neg p1]
    by_cases p2 : st.buf.getD st.pos 0 &&& 0xF0 = TYPE_GROUP.NUMBER
    · rw [if_pos p2]
      exact readNumber_monoAt _ _
    rw [if_neg p2]
    by_cases p3 : st.buf.getD st.pos 0 &&& 0xF0 = TYPE_GROUP.BIGINT
    · rw [if_pos p3]
      exact readBigInt_monoAt _ _
    rw [if_neg p3]
    by_cases p4 : st.buf.getD st.pos 0 &&& 0xF0 = TYPE_GROUP.STRING
    · rw [if_pos p4]
      exact readString_monoAt _ _
    rw [if_neg p4]
    by_cases p5 : st.buf.getD st.pos 0 &&& 0xF0 = TYPE_GROUP.TYPED
    · rw [if_pos p5]
      exact readTypedArray_monoAt _ _
    rw [if_neg p5]
    by_cases p6 : st.buf.getD st.pos 0 &&& 0xF0 = TYPE_GROUP.BUFFER
    · rw [if_pos p6]
      exact readArrayBuffer_monoAt _
    rw [if_neg p6]
    by_cases p7 : st.buf.getD st.pos 0 &&& 0xF0 = TYPE_GROUP.DATE
    · rw [if_pos p7]
      exact readDate_monoAt _ _
    rw [if_neg p7]
    by_cases p8 : st.buf.getD st.pos 0 &&& 0xF0 = TYPE_GROUP.ERROR
    · rw [if_pos p8]
      refine monoAt_bindB hB0 (ih _ hB0).monoAt ?_
      intro message st1 _ hB1
      dsimp only
      refine monoAt_bindB hB1 (ih st1 hB1).monoAt ?_
      intro stack st2 _ hB2
      dsimp only
      split
      · refine monoAt_bindB hB2 (readVarint_strictAt st2).monoAt ?_
        intro errorCount st3 _ hB3
        dsimp only
        refine monoAt_bindB hB3 (readMany_monoAt ih errorCount st3 hB3) ?_
        intro inner st4 _ _
        dsimp only
        exact monoAt_ok _ _
      · exact monoAt_ok _ _
    rw [if_neg p8]
    by_cases p9 : st.buf.getD st.pos 0 &&& 0xF0 = TYPE_GROUP.REGEX
    · rw [if_pos p9]
      refine monoAt_bindB hB0 (ih _ hB0).monoAt ?_
      intro src st1 _ hB1
      dsimp only
      refine monoAt_bindB hB1 (ih st1 hB1).monoAt ?_
      intro flags st2 _ _
      dsimp only
      exact monoAt_ok _ _
    rw [if_neg p9]
    by_cases p10 : st.buf.getD st.pos 0 &&& 0xF0 = TYPE_GROUP.BINARY
    · rw [if_pos p10]
      exact readBinary_monoAt _
    rw [if_neg p10]
    by_cases p11 : st.buf.getD st.pos 0 &&& 0xF0 = TYPE_GROUP.SPECIAL
    · rw [if_pos p11]
      by_cases s1 : st.buf.getD st.pos 0 = TYPE.SYMBOL
      · rw [if_pos s1]
        refine monoAt_bindB hB0 (ih _ hB0).monoAt ?_
        intro description st1 _ _
        dsimp only
        exact monoAt_ok _ _
      rw [if_neg s1]
      by_cases s2 : st.buf.getD st.pos 0 = TYPE.SYMBOL_NO_DESC
      · rw [if_pos s2]
        exact monoAt_ok _ _
      rw [if_neg s2]
      by_cases s3 : st.buf.getD st.pos 0 = TYPE.SYMBOL_GLOBAL
      · rw [if_pos s3]
        refine monoAt_bindB hB0 (ih _ hB0).monoAt ?_
        intro key st1 _ _
        dsimp only
        exact monoAt_ok _ _
      rw [if_neg s3]
      by_cases s4 : st.buf.getD st.pos 0 = TYPE.SYMBOL_WELLKNOWN
      · rw [if_pos s4]
        refine monoAt_bindB hB0 (ih _ hB0).monoAt ?_
        intro name st1 _ _
        dsimp only
        exact monoAt_ok _ _
      rw [if_neg s4]
      exact monoAt_error (by simp) _
    rw [if_neg p11]
    by_cases p12 : st.buf.getD st.pos 0 &&& 0xF0 = TYPE_GROUP.EXTENSION
    · rw [if_pos p12]
      exact readExtension_monoAt _ _
    rw [if_neg p12]
    exact monoAt_error (by simp) _

/-- An error value produced by a computation that cannot be fuel-exhaustion
is itself not the fuel-exhaustion marker. -/
theorem err_ne_fuelOut {α : Type} {r : Except RErr α} {e : RErr}
    (h : r ≠ .error .fuelOut) (hr : r = .error e) : e ≠ .fuelOut := by
  intro he
  subst he
  exact h hr

/-! ## Claim theorems -/

/-- C1: round-trip fails on the code as written.  For
V = ["ab", "hello", "hello"] under the default options, the encoder registers
only the two occurrences of "hello" (length > 3) in its string table and
emits STRING_REF id 0 for the second one, while the decoder appends every
decoded non-empty string, so its table is ["ab", "hello"] when the reference
is resolved and id 0 yields "ab": the decoded value is ["ab", "hello", "ab"],
not semantically equivalent to V. -/
theorem roundtrip_string_ref_mismatch :
    deserialize (serialize 3
        (Value.varr [.vstr [0x61, 0x62], .vstr [0x68, 0x65, 0x6C, 0x6C, 0x6F],
          .vstr [0x68, 0x65, 0x6C, 0x6C, 0x6F]])) =
      .ok (.darr [.dstr [0x61, 0x62], .dstr [0x68, 0x65, 0x6C, 0x6C, 0x6F],
        .dstr [0x61, 0x62]]) ∧
    ([0x61, 0x62] : List Nat) ≠ [0x68, 0x65, 0x6C, 0x6C, 0x6F] :=
  ⟨rfl, by decide⟩

/-- C2 counterexample: the length-16 array [1..16] passes the eligibility
gate, yet the analyzer classifies it ARRAY_PACKED_I32, not ARRAY_PACKED_I8:
for absMax at most 0x7F the bit pattern typeIndex = 7 indexes the table
[I32, I8, I16, I32] at 7 & 3 = 3. -/
theorem analyzeNumericArray_one_to_sixteen_not_i8 :
    canOptimize ((List.range 16).map fun i => Value.vnum ((i : ℤ) + 1)) = true ∧
    analyzeNumericArray
        [1, 2, 3, 4, 5, 6, 7, 8, 9, 10, 11, 12, 13, 14, 15, 16] =
      TYPE.ARRAY_PACKED_I32 ∧
    TYPE.ARRAY_PACKED_I32 ≠ TYPE.ARRAY_PACKED_I8 :=
  ⟨rfl, rfl, by decide⟩

/-- C2 amended: on an all-integer array (every element its own int32
coercion, the analyzer's isInteger test), the packed element type is
ARRAY_PACKED_I16 exactly when 0x7F < max(|min|, |max|) <= 0x7FFF and
ARRAY_PACKED_I32 otherwise — ARRAY_PACKED_I8 is never selected, and integer
content beyond int32 fails the isInteger test and takes the float branch
instead of mapping to ARRAY_PACKED_F64. -/
theorem analyzeNumericArray_integer_branch (xs : List ℤ)
    (h : ∀ v ∈ xs, toInt32 v = v) :
    analyzeNumericArray xs =
      if arrayAbsMax xs ≤ 0x7F then TYPE.ARRAY_PACKED_I32
      else if arrayAbsMax xs ≤ 0x7FFF then TYPE.ARRAY_PACKED_I16
      else TYPE.ARRAY_PACKED_I32 := by
  have hall : (xs.all fun val => val == toInt32 val) = true := by
    simp only [List.all_eq_true, beq_iff_eq]
    intro v hv
    exact (h v hv).symm
  simp only [analyzeNumericArray, hall, if_true]
  by_cases h1 : arrayAbsMax xs ≤ 0x7F
  · have h2 : arrayAbsMax xs ≤ 0x7FFF := by omega
    have h3 : arrayAbsMax xs ≤ 0x7FFFFFFF := by omega
    rw [if_pos h1, if_pos h2, if_pos h3, if_pos h1]
    decide
  · by_cases h2 : arrayAbsMax xs ≤ 0x7FFF
    · have h3 : arrayAbsMax xs ≤ 0x7FFFFFFF := by omega
      rw [if_neg h1, if_pos h2, if_pos h3, if_neg h1, if_pos h2]
      decide
    · rw [if_neg h1, if_neg h2, if_neg h1, if_neg h2]
      by_cases h3 : arrayAbsMax xs ≤ 0x7FFFFFFF
      · rw [if_pos h3]
        decide
      · rw [if_neg h3]
        decide

/-- C2 witness: the amended classification applied to [1..16] gives
ARRAY_PACKED_I32. -/
theorem analyzeNumericArray_integer_branch_witness :
    analyzeNumericArray [1, 2, 3, 4, 5, 6, 7, 8, 9, 10, 11, 12, 13, 14, 15, 16] =
      TYPE.ARRAY_PACKED_I32 :=
  (analyzeNumericArray_integer_branch
    [1, 2, 3, 4, 5, 6, 7, 8, 9, 10, 11, 12, 13, 14, 15, 16] (by decide)).trans
    (by decide)

/-- C3 counterexample: serialize(1000) emits tag 0x12 (INT32) at offset 5,
not 0x11 (INT16), and the output is not the byte string of the claim (whose
second byte 0x42 also contradicts the little-endian magic 0x54425235). -/
theorem serialize_1000_not_i16 :
    (serialize 1 (Value.vnum 1000)).getD 5 0 = 0x12 ∧
    serialize 1 (Value.vnum 1000) ≠ [0x35, 0x42, 0x42, 0x54, 0x05, 0x11, 0xE8, 0x03] :=
  ⟨rfl, by decide⟩

/-- C3 amended: the classifier assigns INT32 to every integer-valued number
in int32 range except -2^31, which gets VARINT (INT8 and INT16 are never
selected); serialize(1000) emits tag 0x12 at offset 5 and, after two bytes of
alignment padding, the int32 payload E8 03 00 00. -/
theorem detectNumber_int32_and_serialize_1000 :
    (∀ x : ℤ, toInt32 x = x →
        detectNumber x = if x = -(2 ^ 31) then TYPE.VARINT else TYPE.INT32) ∧
    ∀ fuel : Nat, serialize (fuel + 1) (Value.vnum 1000) =
      [0x35, 0x52, 0x42, 0x54, 0x05, 0x12, 0x00, 0x00, 0xE8, 0x03, 0x00, 0x00] :=
  ⟨detectNumber_int32_fixed, fun _ => rfl⟩

/-- C3 witness: the amended classification applied to 1000 gives INT32. -/
theorem detectNumber_int32_and_serialize_1000_witness :
    toInt32 1000 = 1000 ∧ detectNumber 1000 = TYPE.INT32 :=
  ⟨by decide,
    (detectNumber_int32_and_serialize_1000.1 1000 (by decide)).trans (by decide)⟩

/-- C4: the encoder does emit the second aliasing view with share-flag 1 and
buffer id 0 (bytes 27-31 of the output: tag 0x60, flag 0x01, id 0x00, offset
0x10, length 0x10), but decoding the output throws: the decoder rebuilt the
backing store of the first view as a fresh 16-byte buffer holding only that
view's bytes, so constructing the second view at offset 16, length 16 raises
a RangeError instead of returning two views sharing one store. -/
theorem shared_typed_array_decode_range_error :
    serialize 3
        (Value.varr [.vu8view 0 0 (List.replicate 16 0xAA),
          .vu8view 0 16 (List.replicate 16 0xBB)]) =
      [0x35, 0x52, 0x42, 0x54, 0x05, 0x41, 0x02,
        0x60, 0x00, 0x00, 0x10,
        0xAA, 0xAA, 0xAA, 0xAA, 0xAA, 0xAA, 0xAA, 0xAA,
        0xAA, 0xAA, 0xAA, 0xAA, 0xAA, 0xAA, 0xAA, 0xAA,
        0x60, 0x01, 0x00, 0x10, 0x10] ∧
    deserialize (serialize 3
        (Value.varr [.vu8view 0 0 (List.replicate 16 0xAA),
          .vu8view 0 16 (List.replicate 16 0xBB)])) =
      .error .rangeError :=
  ⟨rfl, rfl⟩

/-- C5 counterexample: serialize(null) is not 35 32 42 54 05 00 — the second
byte of the little-endian magic 0x54425235 is 0x52, not 0x32. -/
theorem serialize_null_not_spec_bytes :
    serialize 1 Value.vnull ≠ [0x35, 0x32, 0x42, 0x54, 0x05, 0x00] := by decide

/-- C5 amended: serialize(null) returns exactly the six bytes
35 52 42 54 05 00: the little-endian magic 0x54425235, the version byte 5,
then the NULL tag as the sole encoded value. -/
theorem serialize_null_bytes : ∀ fuel : Nat,
    serialize (fuel + 1) Value.vnull = [0x35, 0x52, 0x42, 0x54, 0x05, 0x00] :=
  fun _ => rfl

/-- C9: writeVarint first coerces with >>> 0 and reserves five bytes of
capacity (ensure(5)) before branching on the value's size; every input below
2^32 emits at most five bytes, so the cursor after the unchecked stores —
and hence each store's offset — stays within the ensured capacity. -/
theorem writeVarint_reserves_five_bytes (u : Nat) (h : u < 2 ^ 32) :
    (varintBytes u).length ≤ 5 ∧
    ∀ p : UltraMemoryPool,
      (p.writeVarint u).data = (p.ensure 5).data ++ varintBytes u ∧
      (p.writeVarint u).data.length ≤ (p.writeVarint u).size := by
  refine ⟨varintBytes_length u h, fun p => ?_⟩
  have hu : (toUint32 u).toNat = u := toUint32_of_lt u h
  obtain ⟨hd, _, hs⟩ := ensure_spec p 5
  have hlen := varintBytes_length u h
  constructor
  · unfold UltraMemoryPool.writeVarint
    dsimp only
    rw [hu]
  · unfold UltraMemoryPool.writeVarint
    dsimp only
    rw [hu]
    show ((p.ensure 5).data ++ varintBytes u).length ≤ (p.ensure 5).size
    rw [List.length_append, hd]
    unfold UltraMemoryPool.pos at hs
    omega

/-- C9 witness: the capacity bound at input 300 on a fresh pool. -/
theorem writeVarint_reserves_five_bytes_witness :
    (varintBytes 300).length ≤ 5 ∧
    ((UltraMemoryPool.init 65536).writeVarint ((300 : Nat) : ℤ)).data.length ≤
      ((UltraMemoryPool.init 65536).writeVarint ((300 : Nat) : ℤ)).size :=
  ⟨(writeVarint_reserves_five_bytes 300 (by decide)).1,
    ((writeVarint_reserves_five_bytes 300 (by decide)).2 (UltraMemoryPool.init 65536)).2⟩

/-- C6: whenever a REFERENCE, STRING_REF or BUFFER_REF tag carries a varint
id that is at least the current size of the corresponding decode-side table
at the moment the tag is decoded, readValue fails with the matching
invalid-reference error (and hence the deserialize call throws, returning no
partial result); readVarint touches only the cursor, so the table checked is
the one current at the tag. -/
theorem readValue_invalid_reference_errors (fuel : Nat) (st : RState) (id : Nat)
    (st1 : RState) (hpos : st.pos < st.buf.length)
    (hvar : readVarint { st with pos := st.pos + 1 } = .ok (id, st1)) :
    (st.buf.getD st.pos 0 = TYPE.REFERENCE → st.deserializeRefs.length ≤ id →
      readValue (fuel + 1) st = .error (.invalidRef id)) ∧
    (st.buf.getD st.pos 0 = TYPE.STRING_REF → st.deserializeStrings.length ≤ id →
      readValue (fuel + 1) st = .error (.invalidStringRef id)) ∧
    (st.buf.getD st.pos 0 = TYPE.BUFFER_REF → st.deserializeBuffers.length ≤ id →
      readValue (fuel + 1) st = .error (.invalidBufferRef id)) := by
  obtain ⟨-, -, -, hrefs, hstrs, hbufs⟩ := readVarint_spec _ _ _ hvar
  refine ⟨fun ht hlen => ?_, fun ht hlen => ?_, fun ht hlen => ?_⟩
  · unfold readValue
    rw [if_neg (by omega)]
    dsimp only
    rw [ht]
    rw [if_pos (Or.inl rfl)]
    rw [hvar, bindOk]
    dsimp only
    rw [if_pos (by rw [hrefs]; exact hlen)]
  · unfold readValue
    rw [if_neg (by omega)]
    dsimp only
    rw [ht]
    rw [if_neg (by decide), if_pos rfl]
    rw [hvar, bindOk]
    dsimp only
    rw [if_pos (by rw [hstrs]; exact hlen)]
  · unfold readValue
    rw [if_neg (by omega)]
    dsimp only
    rw [ht]
    rw [if_neg (by decide), if_neg (by decide), if_pos rfl]
    rw [hvar, bindOk]
    dsimp only
    rw [if_pos (by rw [hbufs]; exact hlen)]

/-- C6 witness: a REFERENCE tag carrying id 5 against an empty table fails
with InvalidReference 5. -/
theorem readValue_invalid_reference_errors_witness :
    readValue 1 (⟨[0xD0, 0x05], 0, [], [], []⟩ : RState) = .error (.invalidRef 5) :=
  (readValue_invalid_reference_errors 0 (⟨[0xD0, 0x05], 0, [], [], []⟩ : RState) 5
      (⟨[0xD0, 0x05], 2, [], [], []⟩ : RState)
      (by decide) rfl).1 rfl (by decide)

/-- C7: in every blob the writer produces, each multi-byte scalar store (the
u16/i16, u32/i32/f32 and f64/i64 DataView stores, and every packed-array or
bulk element store — recorded in the pool trace as an (offset, width) pair)
lands at a wire offset divisible by its width; in particular every store of
width 2, 4 or 8 is 2-, 4- or 8-byte aligned. -/
theorem serialize_trace_aligned (fuel : Nat) (value : Value) :
    ∀ e ∈ (serializeState fuel value).pool.trace, e.1 % e.2 = 0 := by
  unfold serializeState
  dsimp only
  apply writeValue_ta
  intro e he
  have htr : (((UltraMemoryPool.init 65536).writeU32 0x54425235).writeU8 5).trace
      = [(0, 4)] := rfl
  rw [htr, List.mem_singleton] at he
  rw [he]
  rfl

/-- C7 witness: serialize(1000) records the int32 payload store at offset 8,
and 8 mod 4 = 0. -/
theorem serialize_trace_aligned_witness :
    (8, 4) ∈ (serializeState 1 (Value.vnum 1000)).pool.trace ∧ 8 % 4 = 0 :=
  ⟨by decide, serialize_trace_aligned 1 (Value.vnum 1000) (8, 4) (by decide)⟩

/-- C8 counterexample: the lone number classified VARINT is -2^31 — a
negative integer — and serialize(-2^31) emits tag 0x1A followed by the varint
of 2^31 and the sign byte 1. -/
theorem varint_tag_emitted_for_negative :
    detectNumber (-2147483648) = TYPE.VARINT ∧ ((-2147483648 : ℤ) < 0) ∧
    serialize 1 (Value.vnum (-2147483648)) =
      [0x35, 0x52, 0x42, 0x54, 0x05, 0x1A, 0x80, 0x80, 0x80, 0x80, 0x08, 0x01] :=
  ⟨by decide, by decide, rfl⟩

/-- C8 amended: the classifier yields the VARINT tag for exactly one number,
-2^31 (the only int32 whose absolute value exceeds 0x7FFFFFFF); in particular
the tag is never used for a non-negative integer. -/
theorem detectNumber_varint_iff (x : ℤ) :
    detectNumber x = TYPE.VARINT ↔ x = -(2 ^ 31) := by
  constructor
  · intro hv
    by_cases hfix : toInt32 x = x
    · by_contra hx
      rw [detectNumber_int32_fixed x hfix, if_neg hx] at hv
      exact absurd hv (by decide)
    · have hne : (x == toInt32 x) = false := by
        rw [beq_eq_false_iff_ne]
        intro hc
        exact hfix hc.symm
      simp only [detectNumber, hne, Bool.false_eq_true, if_false] at hv
      split at hv <;> exact absurd hv (by decide)
  · intro hx
    subst hx
    decide

/-- C10: the decoder terminates on every input byte sequence.  In the
embedding readValue runs on an explicit fuel and deserialize supplies one
more than the input length; since every readValue call consumes at least the
tag byte over an unchanged buffer, every loop is bounded by its decoded
count, and every primitive read is bounds-checked, that fuel is never
exhausted: deserialize answers every input with a value or a genuine decode
error, never the fuel-exhaustion marker that stands for non-termination. -/
theorem deserialize_never_exhausts_fuel (input : List Nat) :
    deserialize input ≠ .error .fuelOut := by
  unfold deserialize
  dsimp only
  cases h4 : readScalar 4 ⟨input, 0, [], [], []⟩ with
  | error e =>
    rw [bindErr]
    intro hc
    injection hc with hc2
    exact err_ne_fuelOut (readScalar_strictAt 4 (by omega) _).1 h4 hc2
  | ok p =>
    obtain ⟨magic, st1⟩ := p
    rw [bindOk]
    dsimp only
    split
    · simp
    · cases h8 : readU8 st1 with
      | error e =>
        rw [bindErr]
        intro hc
        injection hc with hc2
        exact err_ne_fuelOut (readU8_strictAt st1).1 h8 hc2
      | ok q =>
        obtain ⟨version, st2⟩ := q
        rw [bindOk]
        dsimp only
        split
        · simp
        · obtain ⟨hp4, hb4⟩ :=
            (readScalar_strictAt 4 (by omega) ⟨input, 0, [], [], []⟩).2 magic st1 h4
          obtain ⟨hp8, hb8⟩ := (readU8_strictAt st1).2 version st2 h8
          have hbuf2 : st2.buf = input := by rw [hb8, hb4]
          have hBv : st2.buf.length - st2.pos < input.length + 1 := by
            rw [hbuf2]
            omega
          cases hv : readValue (input.length + 1) st2 with
          | error e =>
            rw [bindErr]
            intro hc
            injection hc with hc2
            exact err_ne_fuelOut (readValue_bound _ st2 hBv).1 hv hc2
          | ok r =>
            obtain ⟨value, st3⟩ := r
            rw [bindOk]
            simp

end TurboSerial
